import Mathlib

/-!
Verification development for the `ecowitt_local` integration
(`custom_components/ecowitt_local/`): a shallow embedding in Lean 4 of the
coordinator's telemetry pipeline (`coordinator.py`) and the sensor entity
identity derivation (`sensor.py`), with theorems settling the specification
claims about identity resolution, value normalization, category
classification, diagnostic synthesis, WS90 synthetic-device handling,
mapping refresh and gateway-info caching.

Conventions of the embedding:
* Python strings are Lean `String`s restricted to ASCII behaviour
  (`str.strip`, `str.isdigit`, `str.lower`, `\d`, `\s` are modelled over the
  ASCII ranges Python uses for this gateway's payloads).
* Python `dict`s keyed by strings are association lists with
  insertion-order iteration and overwrite-in-place assignment (`dictInsert`).
* Python exceptions are `Except PyErr`; a bare value means no exception can
  occur at that point.
* Python floats are modelled as exact decimals (`Rat`) plus the `inf`,
  `-inf`, `nan` tokens the `float()` constructor accepts; no float
  arithmetic is performed by the modelled code, only literal parsing.
* Timestamp fields (`last_update`) and log statements are omitted: no
  claim depends on them.
-/

/-- Python error values: `ValueError` from failed `int()`/`float()` parses,
and a generic exception for modelling calls that may raise. -/
inductive PyErr where
  | valueError
  | err
deriving DecidableEq, Repr

/-- Python float parse results: exact decimal value, or the special tokens. -/
inductive FloatVal where
  | num (q : ℚ)
  | inf
  | ninf
  | nan
deriving DecidableEq, Repr

/-- A loosely typed Python value as it flows through the coordinator:
string, int, or float. -/
inductive Value where
  | str (s : String)
  | int (n : ℤ)
  | float (f : FloatVal)
deriving DecidableEq, Repr

/-- Characters stripped by Python `str.strip()` (ASCII whitespace). -/
def pyWSChar (c : Char) : Bool :=
  c = ' ' ∨ c = '\t' ∨ c = '\n' ∨ c = '\r' ∨ c = '\x0b' ∨ c = '\x0c'

/-- Python `str.strip()`. -/
def pyStrip (s : String) : String :=
  String.mk (((s.data.dropWhile pyWSChar).reverse.dropWhile pyWSChar).reverse)

/-- Python `str.isdigit()` (ASCII digits; nonempty). -/
def pyIsdigit (s : String) : Bool :=
  s.data ≠ [] ∧ s.data.all Char.isDigit

/-- Python `str.lower()` (character-wise, ASCII). -/
def pyToLower (s : String) : String := String.mk (s.data.map Char.toLower)

/-- Python `str.upper()` (character-wise, ASCII). -/
def pyToUpper (s : String) : String := String.mk (s.data.map Char.toUpper)

/-- Python `s.startswith(p)`. -/
def pyStartsWith (s p : String) : Bool := p.data.isPrefixOf s.data

/-- Python truthiness (`bool(value)`) for the values modelled here. -/
def pyTruthy : Value → Bool
  | .str s => s ≠ ""
  | .int n => n ≠ 0
  | .float f => f ≠ .num 0

/-- Python `str(value)`. The `float` rendering is only reachable through the
dead outermost exception handler of `_convert_sensor_value`; it is rendered
from the exact decimal. -/
def pyStr : Value → String
  | .str s => s
  | .int n => toString n
  | .float .inf => "inf"
  | .float .ninf => "-inf"
  | .float .nan => "nan"
  | .float (.num q) => toString q

/-- Numeric value of a digit character. -/
def digitVal (c : Char) : Nat := c.toNat - 48

/-- Maximal run of ASCII digits with PEP 515 single underscores between
digits, as consumed by Python `int()` / `float()`. Returns the accumulated
value, the number of digits consumed, and the rest of the input. An
underscore not placed between two digits is left in the rest (where the
surrounding grammar then rejects it, as Python does). -/
def takeDigits : List Char → Nat → Nat → (Nat × Nat × List Char)
  | [], acc, cnt => (acc, cnt, [])
  | '_' :: c :: cs, acc, cnt =>
    if cnt ≠ 0 ∧ c.isDigit then takeDigits cs (acc * 10 + digitVal c) (cnt + 1)
    else (acc, cnt, '_' :: c :: cs)
  | c :: cs, acc, cnt =>
    if c.isDigit then takeDigits cs (acc * 10 + digitVal c) (cnt + 1)
    else (acc, cnt, c :: cs)

/-- Python `int(s)`: strip, optional sign, digit run (with underscores);
`none` models the `ValueError` raised on any other input. -/
def intParse (s : String) : Option ℤ :=
  let cs := (pyStrip s).data
  let (sgn, body) : Bool × List Char :=
    match cs with
    | '-' :: t => (true, t)
    | '+' :: t => (false, t)
    | _ => (false, cs)
  let (v, cnt, rest) := takeDigits body 0 0
  if cnt ≠ 0 ∧ rest = [] then some (if sgn then -(v : ℤ) else (v : ℤ))
  else none

/-- Python `float(s)`: strip, optional sign, then `inf`/`infinity`/`nan`
(case-insensitive) or a decimal literal `d* [. d*] [(e|E) [sign] d+]` with at
least one mantissa digit; `none` models the `ValueError` on any other
input. -/
def floatParse (s : String) : Option FloatVal :=
  let cs := (pyStrip s).data
  let (sgn, body) : Bool × List Char :=
    match cs with
    | '-' :: t => (true, t)
    | '+' :: t => (false, t)
    | _ => (false, cs)
  let low := body.map Char.toLower
  if low = "inf".data ∨ low = "infinity".data then
    some (if sgn then .ninf else .inf)
  else if low = "nan".data then some .nan
  else
    let (ip, ic, r1) := takeDigits body 0 0
    let (fp, fc, r2) :=
      match r1 with
      | '.' :: t => takeDigits t 0 0
      | _ => (0, 0, r1)
    let hadDot : Bool := match r1 with | '.' :: _ => true | _ => false
    if ic = 0 ∧ fc = 0 then none
    else if ¬ hadDot ∧ r2 ≠ r1 then none
    else
      let mant : ℚ := (ip : ℚ) + (fp : ℚ) / ((10 : ℚ) ^ fc)
      let signed : ℚ → FloatVal := fun q => .num (if sgn then -q else q)
      match r2 with
      | [] => some (signed mant)
      | e :: t =>
        if e = 'e' ∨ e = 'E' then
          let (esgn, t2) : Bool × List Char :=
            match t with
            | '-' :: u => (true, u)
            | '+' :: u => (false, u)
            | _ => (false, t)
          let (ev, ec, r3) := takeDigits t2 0 0
          if ec ≠ 0 ∧ r3 = [] then
            some (signed (if esgn then mant / (10 : ℚ) ^ ev else mant * (10 : ℚ) ^ ev))
          else none
        else none

/-- First character a unit token may start with in the embedded-unit regex of
`_convert_sensor_value`: the class `[a-zA-Z%/]`. -/
def unitStartChar (c : Char) : Bool := c.isAlpha ∨ c = '%' ∨ c = '/'

/-- Drop one final newline, modelling that `$` in Python `re` also matches
just before a trailing newline. -/
def dropFinalNL (cs : List Char) : List Char :=
  match cs.reverse with
  | '\n' :: t => t.reverse
  | _ => cs

/-- The tail `\s*([a-zA-Z%/]+.*)?$` of the embedded-unit regex: optional
whitespace, then either end of input or a unit token (first char in
`[a-zA-Z%/]`, remaining chars anything but a newline, `$` allowing one final
newline). -/
def tailOk (r : List Char) : Bool :=
  let r1 := r.dropWhile pyWSChar
  match r1 with
  | [] => true
  | c :: rest => unitStartChar c ∧ (dropFinalNL rest).all (· ≠ '\n')

/-- `re.match(r'^([-+]?\d*\.?\d+)\s*([a-zA-Z%/]+.*)?$', str_value)` from
`_convert_sensor_value` (coordinator.py:512): returns group 1 (the numeric
part) when the whole string matches. -/
def numMatch (s : String) : Option (List Char) :=
  let cs := s.data
  let (sgn, cs1) : List Char × List Char :=
    match cs with
    | c :: t => if c = '-' ∨ c = '+' then ([c], t) else ([], cs)
    | [] => ([], [])
  let (a, r1) := cs1.span Char.isDigit
  match r1 with
  | '.' :: t =>
    let (b, r2) := t.span Char.isDigit
    if b = [] then none
    else if tailOk r2 then some (sgn ++ a ++ '.' :: b) else none
  | _ =>
    if a = [] then none
    else if tailOk r1 then some (sgn ++ a) else none

/-- The sentinel tokens of `_convert_sensor_value` (coordinator.py:504). -/
def sentinelTokens : List String := ["--", "null", "none", "n/a"]

/-- `str_value.replace("-", "").replace(".", "").strip() == ""`
(coordinator.py:506). -/
def dashDotEmpty (t : String) : Bool :=
  pyStrip (String.mk (t.data.filter (fun c => ¬(c = '-' ∨ c = '.')))) = ""

/-- The invalid-reading test of `_convert_sensor_value`
(coordinator.py:504-506): case-insensitive sentinel token, or leading
`--`, or only dashes/dots/whitespace. -/
def isSentinel (t : String) : Bool :=
  pyToLower t ∈ sentinelTokens ∨ pyStartsWith t "--" ∨ dashDotEmpty t

/-- The fall-through parsing after the embedded-unit regex in
`_convert_sensor_value` (coordinator.py:524-538): try `int(str_value)`, then
`float(str_value)`, else return the stripped string itself. -/
def afterRegex (t : String) : Option Value :=
  match intParse t with
  | some n => some (.int n)
  | none =>
    match floatParse t with
    | some f => some (.float f)
    | none => some (.str t)

/-- The body of `_convert_sensor_value` (coordinator.py:492-538) inside its
outermost `try`. `Except` errors model exceptions escaping the body; every
internal `int()`/`float()` `ValueError` is caught by the body's own
handlers, which this definition mirrors. `none` is Python `None`. -/
def convertBody (value : Value) : Except PyErr (Option Value) :=
  if ¬ pyTruthy value then .ok none
  else
    match value with
    | .int n => .ok (some (.int n))
    | .float f => .ok (some (.float f))
    | .str s =>
      let t := pyStrip s
      if isSentinel t then .ok none
      else
        match numMatch t with
        | some np =>
          if '.' ∉ np then
            match intParse (String.mk np) with
            | some n => .ok (some (.int n))
            | none => .ok (afterRegex t)
          else
            match floatParse (String.mk np) with
            | some f => .ok (some (.float f))
            | none => .ok (afterRegex t)
        | none => .ok (afterRegex t)

/-- `_convert_sensor_value` (coordinator.py:490-542) with its outermost
`try`/`except Exception` (lines 540-542): a caught exception yields
`str(value)` when the value is truthy, else `None`. -/
def convertRun (value : Value) : Except PyErr (Option Value) :=
  match convertBody value with
  | .ok r => .ok r
  | .error _ => .ok (if pyTruthy value then some (.str (pyStr value)) else none)

/-- The value `_convert_sensor_value` hands back to its caller. -/
def convertSensorValue (value : Value) : Option Value :=
  match convertRun value with
  | .ok r => r
  | .error _ => none

/-! ## Entity unique-id derivation (sensor.py:108-112) -/

/-- `EcowittLocalSensor.__init__` unique-id derivation (sensor.py:108-112):
`f"{DOMAIN}_{hardware_id}_{sensor_key}"` when the hardware id is truthy,
else `f"{DOMAIN}_{config_entry.entry_id}_{sensor_key}"`. -/
def uniqueId (domain : String) (hardwareId : Option String) (entryId : String)
    (sensorKey : String) : String :=
  match hardwareId with
  | some h =>
    if h ≠ "" then domain ++ "_" ++ h ++ "_" ++ sensorKey
    else domain ++ "_" ++ entryId ++ "_" ++ sensorKey
  | none => domain ++ "_" ++ entryId ++ "_" ++ sensorKey

/-! ## Mapper state and dictionary primitives -/

/-- Python `dict` assignment `d[k] = v`: overwrite in place when the key
exists (iteration order preserved), else append. -/
def dictInsert {α : Type} (d : List (String × α)) (k : String) (v : α) :
    List (String × α) :=
  if d.any (fun p => p.1 = k) then d.map (fun p => if p.1 = k then (k, v) else p)
  else d ++ [(k, v)]

/-- Python `d.get(k)`. -/
def dictGet {α : Type} (d : List (String × α)) (k : String) : Option α :=
  (d.find? (fun p => p.1 = k)).map Prod.snd

/-- One `_sensor_info` record of the sensor mapper (the `raw_data` payload
field is omitted: no modelled consumer reads it). -/
structure HwInfo where
  sensorType : String
  channel : Option String
  deviceModel : Option String
  battery : Option String
  signal : Option String
deriving DecidableEq, Repr

/-- The sensor mapper's mutable state: `_sensor_info` (hardware id →
unit record) and `_hardware_mapping` (wire key → hardware id), both
insertion-ordered dicts. -/
structure MapperState where
  sensorInfo : List (String × HwInfo)
  hardwareMapping : List (String × String)
deriving DecidableEq, Repr

/-- Modelled from the spec: `SensorMapper.get_hardware_id` lives in
`sensor_mapper.py`, which is absent from the reviewed sources; per §4.1 it is
a pure lookup of the wire key in the mapper's wire-key table, `none` meaning
no physical unit owns the key. -/
def mapperGetHardwareId (st : MapperState) (wireKey : String) : Option String :=
  dictGet st.hardwareMapping wireKey

/-- Modelled from the spec: `SensorMapper.get_sensor_info` (sensor_mapper.py,
absent from the reviewed sources) per §4.1 returns the unit's record or
`none`. -/
def mapperGetSensorInfo (st : MapperState) (hardwareId : String) : Option HwInfo :=
  dictGet st.sensorInfo hardwareId

/-! ## WS90 synthetic device handling (coordinator.py:608-689) -/

/-- The WS90 metadata captured from a qualifying rain-section item
(coordinator.py:237-242). -/
structure Ws90Meta where
  battery : String
  voltage : Option String
  ws90capVolt : Option String
  ws90Ver : String
deriving DecidableEq, Repr

/-- One item of the `piezoRain` payload section, with `none` for absent
fields. -/
structure RainItem where
  id : Option String
  val : Option String
  battery : Option String
  voltage : Option String
  ws90capVolt : Option String
  ws90Ver : Option String
deriving DecidableEq, Repr

/-- Truthiness of an optional string field (`"k" in item and item["k"]`). -/
def truthyOptStr : Option String → Bool
  | some s => s ≠ ""
  | none => false

/-- A rain item that triggers WS90 metadata capture (coordinator.py:228,
235-236): it is an `{id, val}` reading and both `battery` and `ws90_ver`
are present and truthy. -/
def ws90Qualifies (item : RainItem) : Bool :=
  item.id.isSome ∧ item.val.isSome ∧ truthyOptStr item.battery ∧
    truthyOptStr item.ws90Ver

/-- The `piezoRain` scan of `_process_live_data` (coordinator.py:220-249)
restricted to its WS90-metadata effect: the last qualifying item wins. -/
def extractWs90Metadata (rain : List RainItem) : Option Ws90Meta :=
  rain.foldl
    (fun acc item =>
      if ws90Qualifies item then
        some { battery := item.battery.getD "", voltage := item.voltage,
               ws90capVolt := item.ws90capVolt, ws90Ver := item.ws90Ver.getD "" }
      else acc)
    none

/-- Substring test (`needle in haystack` on Python strings). -/
def containsSub (needle : List Char) : List Char → Bool
  | [] => needle.isPrefixOf []
  | c :: t => needle.isPrefixOf (c :: t) || containsSub needle t

/-- The scan of `_get_or_generate_ws90_hardware_id` over `_sensor_info`
(coordinator.py:663-670) for a unit whose `device_model` equals or contains
`"wh90"`; returns the first matching hardware id. -/
def findWh90 : List (String × HwInfo) → Option String
  | [] => none
  | (h, i) :: rest =>
    if pyToLower (i.deviceModel.getD "") = "wh90" ∨
        containsSub "wh90".data (pyToLower (i.deviceModel.getD "")).data then some h
    else findWh90 rest

/-- `_get_or_generate_ws90_hardware_id` (coordinator.py:658-689): reuse a
misidentified WH90 entry (updating its model in place), else derive
`"D" + last 3 chars of ws90_ver`, else the fallback id. Returns the possibly
mutated state and the id. -/
def getOrGenerateWs90HardwareId (st : MapperState) (meta : Ws90Meta) :
    MapperState × Option String :=
  match findWh90 st.sensorInfo with
  | some h =>
    ({ st with
        sensorInfo := st.sensorInfo.map
          (fun p =>
            if p.1 = h then
              (p.1, { p.2 with deviceModel := some "ws90", sensorType := "WS90" })
            else p) },
      some h)
  | none =>
    if meta.ws90Ver ≠ "" then
      let v := meta.ws90Ver.data
      (st, some ("D" ++ String.mk (if v.length ≥ 3 then v.drop (v.length - 3) else v)))
    else (st, some "WS90_DEFAULT")

/-- The synthetic `_sensor_info` record created for the WS90
(coordinator.py:632-640). -/
def mkWs90Info (meta : Ws90Meta) : HwInfo :=
  { sensorType := "WS90", channel := some "", deviceModel := some "ws90",
    battery := some meta.battery, signal := some "4" }

/-- The `hex_id_sensors` list of `_handle_ws90_device`
(coordinator.py:643-647): the wire keys remapped to the WS90 unit. -/
def ws90HexIdSensors : List String :=
  ["0x02", "0x03", "0x07", "0x0B", "0x0C", "0x19", "0x0A", "0x6D",
   "0x15", "0x17", "0x0D", "0x0E", "0x7C", "0x10", "0x11", "0x12",
   "0x13", "0x14", "3", "5", "srain_piezo", "ws90batt"]

/-- `_handle_ws90_device` (coordinator.py:608-656): derive the WS90 hardware
id, install exactly one synthetic unit record, and point every WS90 wire key
at it. -/
def handleWs90Device (st : MapperState) (meta : Ws90Meta) : MapperState :=
  let (st1, oid) := getOrGenerateWs90HardwareId st meta
  match oid with
  | none => st1
  | some wid =>
    if wid = "" then st1
    else
      let st2 := { st1 with sensorInfo := dictInsert st1.sensorInfo wid (mkWs90Info meta) }
      { st2 with
        hardwareMapping :=
          ws90HexIdSensors.foldl (fun m k => dictInsert m k wid) st2.hardwareMapping }

/-! ## Gateway-ownership rule (coordinator.py:691-715) -/

/-- Modelled from the spec: `WS90_HEX_SENSORS` is defined in `const.py`,
which is absent from the reviewed sources. Per §4.3 these are the keys
"known to be produced exclusively by the all-in-one unit", which the
coordinator's own `hex_id_sensors` list (coordinator.py:643-647) enumerates,
and the gateway-ownership rule requires the two dynamically reassigned keys
`"3"`/`"5"` to resolve to that unit when present. -/
def ws90HexSensors : List String := ws90HexIdSensors

/-- `_is_gateway_sensor` (coordinator.py:691-715). `GATEWAY_SENSORS` lives in
`const.py` (absent from the reviewed sources) and is passed as the
`gatewaySensors` membership predicate. -/
def isGatewaySensor (gatewaySensors : String → Bool) (sensorKey : String)
    (ws90Present : Bool) : Bool :=
  if gatewaySensors sensorKey then true
  else if (sensorKey = "3" ∨ sensorKey = "5") ∧ ¬ ws90Present then true
  else if ws90HexSensors.contains sensorKey ∧ ws90Present then false
  else true

/-! ## The per-item telemetry loop (coordinator.py:293-384) -/

/-- One `{id, val}` telemetry item after section flattening;
`item.get("id") or ""` / `item.get("val") or ""` collapse absent and empty
fields to `""` (coordinator.py:294-295). -/
structure Item where
  id : String
  val : String
deriving DecidableEq, Repr

/-- One entry of `SENSOR_TYPES` / `SYSTEM_SENSORS` (const.py, absent from
the reviewed sources): the fields the loop reads. -/
structure TypeInfo where
  deviceClass : Option String
  unit : Option String
deriving DecidableEq, Repr

/-- The static tables imported from `const.py`, which is absent from the
reviewed sources; they are parameters of the embedding. `batterySensors` is
the truthiness of `BATTERY_SENSORS.get(key, {})`, i.e. membership (the
table's values are non-empty records). -/
structure ConstTables where
  sensorTypes : String → Option TypeInfo
  batterySensors : String → Bool
  systemSensors : String → Option TypeInfo
  gatewaySensors : String → Bool

/-- The sensor-mapper calls issued by the loop. `sensor_mapper.py` is absent
from the reviewed sources, so the loop is verified against an arbitrary
mapper behaviour, including a raising one: per the spec these are lookups,
but any Python call may raise, which `Except` models. `get_sensor_info` is
per §4.1 a pure lookup. -/
structure MapperOracle where
  getHardwareId : String → Except PyErr (Option String)
  generateEntityId : String → Option String → Except PyErr (String × String)
  getSensorInfo : String → Option HwInfo

/-- One processed reading as stored in `sensors_data`
(coordinator.py:369-384); the attribute dict is carried as the `details`
record (the hardware attributes attached when the hardware id is known),
timestamps omitted. -/
structure Reading where
  entityId : String
  name : String
  state : Option Value
  unit : Option String
  deviceClass : Option String
  category : String
  sensorKey : String
  hardwareId : Option String
  rawValue : Value
  details : Option HwInfo
deriving DecidableEq, Repr

/-- The `sensors_data` dict: entity id → reading, insertion-ordered. -/
abbrev SensorsData : Type := List (String × Reading)

/-- Python `int()` of a string that passed `str.isdigit()`. -/
def digitsToNat (s : String) : Nat :=
  s.data.foldl (fun a c => a * 10 + digitVal c) 0

/-- The battery-scale conversion of the loop (coordinator.py:352-364),
applied when the key is in the battery table and the value is digit-only:
a 0-5 code becomes `str(value * 20)`, a larger value is kept as is. -/
def batteryScaleValue (sensorValue : String) : String :=
  if digitsToNat sensorValue ≤ 5 then toString (digitsToNat sensorValue * 20)
  else sensorValue

/-- The reading stored by one iteration of the `for item in
all_sensor_items` loop (coordinator.py:319-384), once the guards have passed
and the mapper calls have returned: classify the category by table
membership (battery moved to diagnostic, system, else plain sensor), pick
device class and unit from the matching table, attach hardware details when
the hardware id is truthy, and convert the value — the battery 0-5 scale
when the key is a battery-table member and the value digit-only, the
generic normalizer otherwise. -/
def loopReading (tables : ConstTables) (mapper : MapperOracle)
    (sensorKey sensorValue : String) (hardwareId : Option String)
    (entityId friendlyName : String) : Reading :=
  let sensorInfo := tables.sensorTypes sensorKey
  let batteryInfo := tables.batterySensors sensorKey
  let systemInfo := tables.systemSensors sensorKey
  let (category, deviceClass, unit) :=
    if batteryInfo then ("diagnostic", "battery", "%")
    else
      match systemInfo with
      | some ti => ("system", ti.deviceClass.getD "", ti.unit.getD "")
      | none =>
        ("sensor", (sensorInfo.bind TypeInfo.deviceClass).getD "",
          (sensorInfo.bind TypeInfo.unit).getD "")
  let details :=
    match hardwareId with
    | some h => if h ≠ "" then mapper.getSensorInfo h else none
    | none => none
  let converted : Option Value :=
    if batteryInfo ∧ sensorValue ≠ "" ∧ pyIsdigit sensorValue then
      some (.str (batteryScaleValue sensorValue))
    else convertSensorValue (.str sensorValue)
  { entityId := entityId, name := friendlyName, state := converted,
    unit := some unit, deviceClass := some deviceClass,
    category := category, sensorKey := sensorKey,
    hardwareId := hardwareId, rawValue := .str sensorValue,
    details := details }

/-- The body of the `for item in all_sensor_items` loop of
`_process_live_data` (coordinator.py:293-384) for one item: guard empty keys
and inactive values, resolve ownership and hardware id, derive the entity
id, then build and store the reading (`loopReading`). Exceptions from the
mapper calls propagate: the loop body has no handler. -/
def processItem (tables : ConstTables) (mapper : MapperOracle)
    (includeInactive : Bool) (ws90Present : Bool) (sd : SensorsData)
    (item : Item) : Except PyErr SensorsData :=
  let sensorKey := item.id
  let sensorValue := item.val
  if sensorKey = "" then .ok sd
  else if sensorValue = "" ∧ ¬ includeInactive then .ok sd
  else do
    let hardwareId ←
      if isGatewaySensor tables.gatewaySensors sensorKey ws90Present then pure none
      else mapper.getHardwareId sensorKey
    let (entityId, friendlyName) ← mapper.generateEntityId sensorKey hardwareId
    .ok (dictInsert sd entityId
      (loopReading tables mapper sensorKey sensorValue hardwareId entityId
        friendlyName))

/-- The whole `for item in all_sensor_items` loop: left fold of
`processItem`, aborting at the first propagated exception (there is no
per-item handler; `_async_update_data` catches it at coordinator.py:94-96
and fails the entire cycle). -/
def processItems (tables : ConstTables) (mapper : MapperOracle)
    (includeInactive : Bool) (ws90Present : Bool) (items : List Item)
    (sd : SensorsData) : Except PyErr SensorsData :=
  items.foldlM (processItem tables mapper includeInactive ws90Present) sd

/-! ## Diagnostic and signal synthesis (coordinator.py:400-488) -/

/-- Signal 0-4 scale to percentage (coordinator.py:425). -/
def signalPct (signal : String) : String :=
  if pyIsdigit signal then toString (digitsToNat signal * 25) else signal

/-- The synthesized signal-strength entity id (coordinator.py:423). -/
def signalEntityId (h : String) : String :=
  "sensor.ecowitt_signal_strength_" ++ pyToLower h

/-- The synthesized hardware-id entity id (coordinator.py:447). -/
def hardwareIdEntityId (h : String) : String :=
  "sensor.ecowitt_hardware_id_" ++ pyToLower h

/-- The synthesized channel entity id (coordinator.py:467). -/
def channelEntityId (h : String) : String :=
  "sensor.ecowitt_channel_" ++ pyToLower h

/-- The synthesized signal-strength reading (coordinator.py:426-443). -/
def signalReading (h signal : String) : Reading :=
  { entityId := signalEntityId h, name := "Signal Strength",
    state := some (.str (signalPct signal)), unit := some "%",
    deviceClass := some "signal_strength", category := "diagnostic",
    sensorKey := "signal_" ++ h, hardwareId := some h,
    rawValue := .str signal, details := none }

/-- The synthesized hardware-id reading (coordinator.py:448-464). -/
def hardwareIdReading (h : String) : Reading :=
  { entityId := hardwareIdEntityId h, name := "Hardware ID",
    state := some (.str h), unit := none, deviceClass := none,
    category := "diagnostic", sensorKey := "hardware_id_" ++ h,
    hardwareId := some h, rawValue := .str h, details := none }

/-- The synthesized channel reading (coordinator.py:468-485). -/
def channelReading (h channel : String) : Reading :=
  { entityId := channelEntityId h, name := "Channel",
    state := some (.str channel), unit := none, deviceClass := none,
    category := "diagnostic", sensorKey := "channel_" ++ h,
    hardwareId := some h, rawValue := .str channel, details := none }

/-- One iteration of `_add_diagnostic_and_signal_sensors`
(coordinator.py:406-488): skip untruthy or already-covered hardware ids,
skip units without mapper info or without a truthy channel, add the signal
reading only for a truthy signal other than `"--"`, always add the
hardware-id and channel readings, then mark the unit covered. -/
def addDiagStep (info : String → Option HwInfo) (acc : SensorsData × List String)
    (r : Reading) : SensorsData × List String :=
  let (sd, added) := acc
  match r.hardwareId with
  | none => acc
  | some h =>
    if h = "" ∨ added.contains h then acc
    else
      match info h with
      | none => acc
      | some hi =>
        let channel := hi.channel.getD ""
        let signal := hi.signal.getD ""
        if channel = "" then acc
        else
          let sd1 :=
            if signal ≠ "" ∧ signal ≠ "--" then
              dictInsert sd (signalEntityId h) (signalReading h signal)
            else sd
          let sd2 := dictInsert sd1 (hardwareIdEntityId h) (hardwareIdReading h)
          let sd3 := dictInsert sd2 (channelEntityId h) (channelReading h channel)
          (sd3, added ++ [h])

/-- `_add_diagnostic_and_signal_sensors` (coordinator.py:400-488): iterate
over a snapshot of the readings (`list(sensors_data.values())`), threading
the dict and the per-call `added_hardware_ids` set. -/
def addDiagnosticAndSignalSensors (info : String → Option HwInfo)
    (sd : SensorsData) : SensorsData :=
  ((List.map Prod.snd sd).foldl (addDiagStep info) (sd, [])).1

/-! ## Mapping refresh (coordinator.py:115-140) -/

/-- One entry of the gateway's mapping snapshot (§6). -/
structure MappingEntry where
  id : String
  typeCode : String
  channel : Option String
  battery : Option String
  signal : Option String
deriving DecidableEq, Repr

/-- The reserved no-unit-paired hardware ids (§3, case-insensitive). -/
def sentinelHardwareIds : List String := ["fffffffe", "ffffffff", "00000000"]

/-- Modelled from the spec: `SensorMapper.update_mapping` lives in
`sensor_mapper.py`, which is absent from the reviewed sources. Per §4.1 it
"replaces the entire hardware-unit table and wire-key mapping in one atomic
step from a freshly fetched snapshot" and discards entries with a sentinel
or empty hardware id; the per-entry unit record and owned-wire-key
derivations are supplied as the `infoFor` / `keysFor` parameters. The
previous state is not consulted (replace-whole). -/
def updateMapping (infoFor : MappingEntry → HwInfo)
    (keysFor : MappingEntry → List String) (snapshot : List MappingEntry)
    (_st : MapperState) : MapperState :=
  let valid := snapshot.filter
    (fun e => e.id ≠ "" ∧ ¬ sentinelHardwareIds.contains (pyToLower e.id))
  { sensorInfo := valid.foldl (fun d e => dictInsert d e.id (infoFor e)) [],
    hardwareMapping :=
      valid.foldl (fun d e => (keysFor e).foldl (fun m k => dictInsert m k e.id) d) [] }

/-- `_update_sensor_mapping` (coordinator.py:115-140): `fetched` is the
result of `api.get_all_sensor_mappings()` (a list, or the exception it
raised). An exception is caught by the method's own handler, which only
logs: the mapper is left untouched. A successful fetch — an empty list
included, which only draws a warning log — is passed to `update_mapping`. -/
def updateSensorMapping (infoFor : MappingEntry → HwInfo)
    (keysFor : MappingEntry → List String) (st : MapperState)
    (fetched : Except PyErr (List MappingEntry)) : MapperState :=
  match fetched with
  | .error _ => st
  | .ok snapshot => updateMapping infoFor keysFor snapshot st

/-! ## Gateway info (coordinator.py:544-606) -/

/-- The decoded `{version, stationtype}` payload of `api.get_version()`. -/
structure VersionInfo where
  version : Option String
  stationtype : Option String
deriving DecidableEq, Repr

/-- The `_gateway_info` dict contents (coordinator.py:557-562, 565-570). -/
structure GatewayInfo where
  model : String
  firmwareVersion : String
  host : String
  gatewayId : String
deriving DecidableEq, Repr

/-- A regex word character (`\w`, ASCII). -/
def isWordChar (c : Char) : Bool := c.isAlpha ∨ c.isDigit ∨ c = '_'

/-- `re.match(r'^(GW\w+)', firmware_version)` (coordinator.py:599-601):
the literal `GW` followed by at least one word character; group 1. -/
def gwMatch (s : String) : Option String :=
  match s.data with
  | 'G' :: 'W' :: rest =>
    let run := rest.takeWhile isWordChar
    if run = [] then none else some (String.mk ('G' :: 'W' :: run))
  | _ => none

/-- `_extract_model_from_firmware` (coordinator.py:574-606). -/
def extractModelFromFirmware (fv : String) : String :=
  if fv = "" ∨ fv = "Unknown" then "Unknown"
  else
    let fromUnderscore : Option String :=
      if fv.data.contains '_' then
        let model := pyStrip (String.mk (fv.data.takeWhile (· ≠ '_')))
        if model ≠ "" ∧ "GW".data.isPrefixOf (pyToUpper model).data then some model
        else none
      else none
    match fromUnderscore with
    | some m => m
    | none =>
      if "GW".data.isPrefixOf (pyToUpper fv).data ∧ ¬ fv.data.contains '.' then pyStrip fv
      else
        match gwMatch fv with
        | some m => m
        | none => "Unknown"

/-- `_process_gateway_info` (coordinator.py:544-572). `cached` is
`self._gateway_info` with the empty (falsy) dict as `none`; `fetch` is what
`api.get_version()` would produce. Returns the dict handed to the caller,
the new cache, and whether a version fetch was issued. -/
def processGatewayInfo (host : String) (cached : Option GatewayInfo)
    (fetch : Except PyErr VersionInfo) : GatewayInfo × Option GatewayInfo × Bool :=
  match cached with
  | some g => (g, some g, false)
  | none =>
    let g :=
      match fetch with
      | .ok vi =>
        let firmwareVersion := vi.version.getD "Unknown"
        let model0 := extractModelFromFirmware firmwareVersion
        let model :=
          if model0 = "" ∨ model0 = "Unknown" then vi.stationtype.getD "Unknown"
          else model0
        { model := model, firmwareVersion := firmwareVersion, host := host,
          gatewayId := vi.stationtype.getD "unknown" }
      | .error _ =>
        { model := "Unknown", firmwareVersion := "Unknown", host := host,
          gatewayId := "unknown" }
    (g, some g, true)

/-- A whole session's worth of `_process_gateway_info` calls: fold the step
over the successive fetch outcomes, collecting each call's returned dict and
counting the fetches actually issued. -/
def gatewayInfoSession (host : String) (cached : Option GatewayInfo) :
    List (Except PyErr VersionInfo) → List GatewayInfo × Option GatewayInfo × Nat
  | [] => ([], cached, 0)
  | f :: fs =>
    let (g, cached', issued) := processGatewayInfo host cached f
    let (gs, cachedEnd, n) := gatewayInfoSession host cached' fs
    (g :: gs, cachedEnd, (if issued then 1 else 0) + n)

/-! ## Dictionary and string lemmas -/

theorem map_overwrite_id {α : Type} (d : List (String × α)) (k : String)
    (v : α) (h : ∀ p ∈ d, p.1 ≠ k) :
    d.map (fun p => if p.1 = k then (k, v) else p) = d := by
  induction d with
  | nil => rfl
  | cons a d ih =>
    have ha : a.1 ≠ k := h a (List.mem_cons_self a d)
    simp only [List.map_cons, if_neg ha]
    rw [ih (fun p hp => h p (List.mem_cons_of_mem a hp))]

theorem dictGet_map_overwrite {α : Type} (d : List (String × α)) (k x : String)
    (v : α) :
    dictGet (d.map (fun p => if p.1 = k then (k, v) else p)) x =
      if x = k then (if d.any (fun p => p.1 = k) then some v else none)
      else dictGet d x := by
  induction d with
  | nil => by_cases hxk : x = k <;> simp [hxk, dictGet]
  | cons a d ih =>
    by_cases hak : a.1 = k
    · by_cases hxk : x = k
      · subst hxk
        simp [dictGet, List.find?_cons, hak]
      · simp only [List.map_cons, if_pos hak, dictGet, List.find?_cons,
          show (decide ((k, v).1 = x)) = false by simp [Ne.symm hxk],
          show (decide (a.1 = x)) = false by simp [hak, Ne.symm hxk]]
        simpa [dictGet, hxk] using ih
    · by_cases hax : a.1 = x
      · have hxk : ¬ x = k := fun e => hak (hax.trans e)
        simp [dictGet, List.find?_cons, if_neg hak, hax, hxk]
      · simp only [List.map_cons, if_neg hak, dictGet, List.find?_cons,
          show (decide (a.1 = x)) = false by simp [hax]]
        by_cases hxk : x = k
        · subst hxk
          have hb : (decide (a.1 = x)) = false := by simp [hak]
          simp only [List.any_cons, hb, Bool.false_or]
          simpa [dictGet] using ih
        · simpa [dictGet, hxk] using ih

theorem dictGet_dictInsert {α : Type} (d : List (String × α)) (k : String)
    (v : α) (x : String) :
    dictGet (dictInsert d k v) x = if x = k then some v else dictGet d x := by
  unfold dictInsert
  by_cases hany : d.any (fun p => p.1 = k)
  · rw [if_pos hany, dictGet_map_overwrite, hany]
    simp
  · rw [if_neg hany]
    unfold dictGet
    rw [List.find?_append]
    by_cases hxk : x = k
    · subst hxk
      have h1 : List.find? (fun p => p.1 = x) d = none := by
        rw [List.find?_eq_none]
        intro p hp
        simp only [decide_eq_true_eq]
        intro hpx
        exact hany (List.any_eq_true.mpr ⟨p, hp, by simpa using hpx⟩)
      simp [h1, List.find?_cons]
    · simp only [List.find?_cons,
        show (decide ((k, v).1 = x)) = false by simp [Ne.symm hxk]]
      cases h2 : List.find? (fun p => p.1 = x) d <;>
        simp [h2, Option.or, if_neg hxk, dictGet]

theorem dictInsert_keys {α : Type} (d : List (String × α)) (k : String) (v : α) :
    (dictInsert d k v).map Prod.fst =
      if d.any (fun p => p.1 = k) then d.map Prod.fst else d.map Prod.fst ++ [k] := by
  unfold dictInsert
  by_cases hany : d.any (fun p => p.1 = k)
  · rw [if_pos hany, if_pos hany, List.map_map]
    apply List.map_congr_left
    intro p _
    by_cases hp : p.1 = k <;> simp [hp]
  · rw [if_neg hany, if_neg hany]
    simp

theorem dictGet_foldl_insert (m0 : List (String × String)) (ks : List String)
    (v x : String) :
    dictGet (ks.foldl (fun m k => dictInsert m k v) m0) x =
      if ks.contains x then some v else dictGet m0 x := by
  induction ks generalizing m0 with
  | nil => simp
  | cons k ks ih =>
    simp only [List.foldl_cons]
    rw [ih]
    by_cases hks : ks.contains x
    · have hmem : x ∈ ks := by simpa using hks
      simp [hmem, List.contains_cons]
    · by_cases hxk : x = k
      · subst hxk
        simp [hks, dictGet_dictInsert, List.contains_cons]
      · simp [hks, dictGet_dictInsert, hxk, List.contains_cons,
          show ¬(x == k) from by simpa using hxk]

theorem string_ne_of_length_ne {s t : String} (h : s.length ≠ t.length) :
    s ≠ t := fun e => h (by rw [e])

theorem append_middle_inj (p s : String) {a b : String}
    (h : p ++ a ++ s = p ++ b ++ s) : a = b := by
  have hd := congrArg String.data h
  simp only [String.data_append, List.append_assoc] at hd
  have h1 := List.append_cancel_left hd
  exact String.ext (List.append_cancel_right h1)

/-! ## Normalizer lemmas -/

theorem convertRun_isOk (v : Value) : ∃ r, convertRun v = Except.ok r := by
  unfold convertRun
  cases h : convertBody v with
  | ok r => exact ⟨r, rfl⟩
  | error e => exact ⟨_, rfl⟩

theorem convertRun_eq_ok (v : Value) :
    convertRun v = Except.ok (convertSensorValue v) := by
  unfold convertSensorValue
  cases h : convertRun v with
  | ok r => rfl
  | error e =>
    unfold convertRun at h
    cases hb : convertBody v <;> rw [hb] at h <;> exact Except.noConfusion h

theorem convertSensorValue_str (s : String) :
    convertSensorValue (.str s) =
      if s = "" then none
      else if isSentinel (pyStrip s) then none
      else
        match numMatch (pyStrip s) with
        | some np =>
          if '.' ∉ np then
            match intParse (String.mk np) with
            | some n => some (.int n)
            | none => afterRegex (pyStrip s)
          else
            match floatParse (String.mk np) with
            | some f => some (.float f)
            | none => afterRegex (pyStrip s)
        | none => afterRegex (pyStrip s) := by
  by_cases h : s = ""
  · simp [convertSensorValue, convertRun, convertBody, pyTruthy, h]
  · by_cases hs : isSentinel (pyStrip s)
    · simp [convertSensorValue, convertRun, convertBody, pyTruthy, h, hs]
    · cases hm : numMatch (pyStrip s) with
      | none =>
        simp [convertSensorValue, convertRun, convertBody, pyTruthy, h, hs, hm]
      | some np =>
        by_cases hd : '.' ∈ np
        · cases hf : floatParse (String.mk np) <;>
            simp [convertSensorValue, convertRun, convertBody, pyTruthy, h, hs,
              hm, hd, hf]
        · cases hi : intParse (String.mk np) <;>
            simp [convertSensorValue, convertRun, convertBody, pyTruthy, h, hs,
              hm, hd, hi]

theorem afterRegex_isSome (t : String) : ∃ v, afterRegex t = some v := by
  unfold afterRegex
  split
  · exact ⟨_, rfl⟩
  split <;> exact ⟨_, rfl⟩

theorem pyStrip_data_sublist (s : String) : (pyStrip s).data.Sublist s.data := by
  unfold pyStrip
  have h1 := List.dropWhile_sublist (l := (s.data.dropWhile pyWSChar).reverse)
    pyWSChar
  have h2 := h1.reverse
  simp only [List.reverse_reverse] at h2
  exact h2.trans (List.dropWhile_sublist pyWSChar)

theorem all_ws_strip_empty (l : List Char) (h : ∀ c ∈ l, pyWSChar c = true) :
    pyStrip (String.mk l) = "" := by
  unfold pyStrip
  rw [show (String.mk l).data = l from rfl, List.dropWhile_eq_nil_iff.mpr h]
  rfl

/-- Claim C8 (counterexample): `"--5"` is non-empty, is none of the four
case-insensitive sentinel tokens, is not made of dashes/dots/whitespace
only, and has no numeric form — the claim therefore demands the verbatim
trimmed-string fallback `"--5"` — yet `_convert_sensor_value` returns
`None`, because coordinator.py:505 also rejects any string that merely
starts with `--`. -/
theorem normalize_dashdash_cex :
    ("--5" : String) ≠ "" ∧
    pyToLower (pyStrip "--5") ∉ sentinelTokens ∧
    ¬(∀ c ∈ ("--5" : String).data, c = '-' ∨ c = '.' ∨ pyWSChar c = true) ∧
    numMatch (pyStrip "--5") = none ∧
    intParse (pyStrip "--5") = none ∧
    floatParse (pyStrip "--5") = none ∧
    convertSensorValue (.str "--5") = none ∧
    (none : Option Value) ≠ some (.str "--5") := by decide

/-- Claim C8 (amended): the generic value normalizer maps the empty string,
the case-insensitive sentinel tokens, dash/dot/whitespace-only strings, and
additionally any string whose stripped form starts with `--` to no reading;
otherwise it strips a trailing unit suffix and parses the remainder,
integer preferred over decimal (`"89%"` ↦ 89, `"29.40 inHg"` ↦ 29.40),
returning the stripped string verbatim when no numeric form exists. -/
theorem normalize_rules_amended :
    convertSensorValue (.str "") = none ∧
    (∀ s : String, pyToLower (pyStrip s) ∈ sentinelTokens →
      convertSensorValue (.str s) = none) ∧
    (∀ s : String, (∀ c ∈ s.data, c = '-' ∨ c = '.' ∨ pyWSChar c = true) →
      convertSensorValue (.str s) = none) ∧
    (∀ s : String, pyStartsWith (pyStrip s) "--" = true →
      convertSensorValue (.str s) = none) ∧
    convertSensorValue (.str "89%") = some (.int 89) ∧
    convertSensorValue (.str "29.40 inHg") = some (.float (.num (147 / 5))) ∧
    (∀ s : String, s ≠ "" → pyToLower (pyStrip s) ∉ sentinelTokens →
      pyStartsWith (pyStrip s) "--" = false →
      dashDotEmpty (pyStrip s) = false →
      numMatch (pyStrip s) = none → intParse (pyStrip s) = none →
      floatParse (pyStrip s) = none →
      convertSensorValue (.str s) = some (.str (pyStrip s))) := by
  refine ⟨by decide, ?_, ?_, ?_, by decide, ?_, ?_⟩
  case refine_4 =>
    have h : convertSensorValue (.str "29.40 inHg") =
        some (.float (.num ((29 : ℚ) + (40 : ℚ) / (10 : ℚ) ^ (2 : ℕ)))) := rfl
    rw [h]
    norm_num
  · intro s hmem
    rw [convertSensorValue_str]
    by_cases h : s = ""
    · simp [h]
    · have hsent : isSentinel (pyStrip s) = true := by
        simp only [isSentinel, decide_eq_true_eq]
        exact Or.inl hmem
      simp [h, hsent]
  · intro s hall
    rw [convertSensorValue_str]
    by_cases h : s = ""
    · simp [h]
    · have hdd : dashDotEmpty (pyStrip s) = true := by
        simp only [dashDotEmpty, decide_eq_true_eq]
        apply all_ws_strip_empty
        intro c hc
        have hmem := List.mem_filter.mp hc
        have hcs : c ∈ s.data := (pyStrip_data_sublist s).subset hmem.1
        have hnp : ¬(c = '-' ∨ c = '.') := by simpa using hmem.2
        rcases hall c hcs with h1 | h1 | h1
        · exact absurd (Or.inl h1) hnp
        · exact absurd (Or.inr h1) hnp
        · exact h1
      have hsent : isSentinel (pyStrip s) = true := by
        simp only [isSentinel, decide_eq_true_eq]
        exact Or.inr (Or.inr (by simp [hdd]))
      simp [h, hsent]
  · intro s hsw
    rw [convertSensorValue_str]
    by_cases h : s = ""
    · simp [h]
    · have hsent : isSentinel (pyStrip s) = true := by
        simp only [isSentinel, decide_eq_true_eq]
        exact Or.inr (Or.inl hsw)
      simp [h, hsent]
  · intro s h1 h2 h3 h4 h5 h6 h7
    have hsent : isSentinel (pyStrip s) = false := by
      simp only [isSentinel, decide_eq_false_iff_not, not_or]
      exact ⟨h2, by simp [h3], by simp [h4]⟩
    rw [convertSensorValue_str]
    simp [h1, hsent, h5, afterRegex, h6, h7]

theorem normalize_rules_amended_witness :
    convertSensorValue (.str "N/A") = none ∧
    convertSensorValue (.str " .- ") = none ∧
    convertSensorValue (.str "--x") = none ∧
    convertSensorValue (.str " inHg ") = some (.str (pyStrip " inHg ")) :=
  ⟨normalize_rules_amended.2.1 "N/A" (by decide),
   normalize_rules_amended.2.2.1 " .- " (by decide),
   normalize_rules_amended.2.2.2.1 "--x" (by decide),
   normalize_rules_amended.2.2.2.2.2.2 " inHg " (by decide) (by decide)
     (by decide) (by decide) (by decide) (by decide) (by decide)⟩

/-- Claim C4 (counterexample): on input `"abc"` both internal parse attempts
raise `ValueError` inside `_convert_sensor_value`, yet the function returns
the string `"abc"`, not `None` — refuting "any parse exception arising
inside it results in NoReading (None) being returned rather than any other
value". -/
theorem normalize_parse_exception_cex :
    intParse "abc" = none ∧ floatParse "abc" = none ∧
    convertSensorValue (.str "abc") = some (.str "abc") ∧
    some (Value.str "abc") ≠ (none : Option Value) := by decide

/-- Claim C4 (amended): the value normalizer never raises to its caller
(its outermost handler turns any exception into a plain return), and it
returns NoReading (`None`) exactly for falsy input or a sentinel-pattern
string; internal parse exceptions are caught and lead to the next parse
attempt or to the stripped string, never to an escaping exception. -/
theorem normalize_never_raises_amended :
    (∀ v : Value, ∃ r, convertRun v = Except.ok r) ∧
    (∀ s : String, convertSensorValue (.str s) = none ↔
      (s = "" ∨ isSentinel (pyStrip s) = true)) := by
  refine ⟨convertRun_isOk, ?_⟩
  intro s
  rw [convertSensorValue_str]
  by_cases h : s = ""
  · simp [h]
  · by_cases hs : isSentinel (pyStrip s)
    · simp [h, hs]
    · simp only [h, hs, if_false, Bool.false_eq_true, iff_false, or_false,
        false_or]
      cases hm : numMatch (pyStrip s) with
      | none =>
        obtain ⟨v, hv⟩ := afterRegex_isSome (pyStrip s)
        simp [hm, hv, h, hs]
      | some np =>
        obtain ⟨v, hv⟩ := afterRegex_isSome (pyStrip s)
        by_cases hd : '.' ∈ np
        · cases hf : floatParse (String.mk np) <;> simp [hm, hd, hf, hv, h, hs]
        · cases hi : intParse (String.mk np) <;> simp [hm, hd, hi, hv, h, hs]

/-- Claim C6 (counterexample): with the hardware id string equal to the
config entry id string, the hardware-scoped unique id collides with the
config-instance fallback unique id — refuting the claimed disequality
between the hardware case and the null-hardware fallback case for all
inputs. -/
theorem unique_id_fallback_collision_cex :
    uniqueId "ecowitt_local" (some "abc") "abc" "temp" =
      uniqueId "ecowitt_local" none "abc" "temp" ∧ ("abc" : String) ≠ "" := by
  decide

/-- Claim C6 (amended): unique-id generation is deterministic; for a fixed
wire key two distinct truthy hardware ids give distinct keys; and the
hardware-scoped key differs from the config-instance fallback key whenever
the hardware id differs from the config entry id string. -/
theorem unique_id_injective_amended :
    (∀ (d e k : String) (h : Option String), uniqueId d h e k = uniqueId d h e k) ∧
    (∀ d e k h1 h2 : String, h1 ≠ "" → h2 ≠ "" → h1 ≠ h2 →
      uniqueId d (some h1) e k ≠ uniqueId d (some h2) e k) ∧
    (∀ d e k h : String, h ≠ "" → h ≠ e →
      uniqueId d (some h) e k ≠ uniqueId d none e k) := by
  refine ⟨fun _ _ _ _ => rfl, ?_, ?_⟩
  · intro d e k h1 h2 hh1 hh2 hne heq
    simp only [uniqueId] at heq
    rw [if_pos hh1, if_pos hh2, String.append_assoc ((d ++ "_") ++ h1) "_" k,
      String.append_assoc ((d ++ "_") ++ h2) "_" k] at heq
    exact hne (append_middle_inj (d ++ "_") ("_" ++ k) heq)
  · intro d e k h hh hne heq
    simp only [uniqueId] at heq
    rw [if_pos hh, String.append_assoc ((d ++ "_") ++ h) "_" k,
      String.append_assoc ((d ++ "_") ++ e) "_" k] at heq
    exact hne (append_middle_inj (d ++ "_") ("_" ++ k) heq)

theorem unique_id_injective_amended_witness :
    uniqueId "ecowitt_local" (some "A1") "entry" "temp0" ≠
      uniqueId "ecowitt_local" (some "B2") "entry" "temp0" ∧
    uniqueId "ecowitt_local" (some "A1") "entry" "temp0" ≠
      uniqueId "ecowitt_local" none "entry" "temp0" :=
  ⟨unique_id_injective_amended.2.1 "ecowitt_local" "entry" "temp0" "A1" "B2"
      (by decide) (by decide) (by decide),
   unique_id_injective_amended.2.2 "ecowitt_local" "entry" "temp0" "A1"
      (by decide) (by decide)⟩

/-- Claim C9 (confirmed): when the mapping fetch raises, the refresh method
swallows the exception and leaves the mapper untouched; when the fetch
returns an empty list without raising, `update_mapping` still runs and
replaces the previously built tables with empty ones, whatever they held. -/
theorem mapping_refresh_error_and_empty :
    (∀ (infoFor : MappingEntry → HwInfo) (keysFor : MappingEntry → List String)
        (st : MapperState) (e : PyErr),
      updateSensorMapping infoFor keysFor st (.error e) = st) ∧
    (∀ (infoFor : MappingEntry → HwInfo) (keysFor : MappingEntry → List String)
        (st : MapperState),
      updateSensorMapping infoFor keysFor st (.ok []) =
        { sensorInfo := [], hardwareMapping := [] }) :=
  ⟨fun _ _ _ _ => rfl, fun _ _ _ => rfl⟩

/-- Claim C10 (confirmed): the first completed gateway-info lookup — fetch
success or failure alike — fills the cache with the very dictionary it
returns, and every later lookup of the session returns that same dictionary
and issues no further version fetch. -/
theorem gateway_info_cached_session :
    (∀ (host : String) (fetch : Except PyErr VersionInfo),
      ∃ g, processGatewayInfo host none fetch = (g, some g, true)) ∧
    (∀ (host : String) (g : GatewayInfo) (fetch : Except PyErr VersionInfo),
      processGatewayInfo host (some g) fetch = (g, some g, false)) ∧
    (∀ (host : String) (g : GatewayInfo) (fs : List (Except PyErr VersionInfo)),
      gatewayInfoSession host (some g) fs = (fs.map (fun _ => g), some g, 0)) := by
  refine ⟨?_, fun _ _ _ => rfl, ?_⟩
  · intro host fetch
    cases fetch <;> exact ⟨_, rfl⟩
  · intro host g fs
    induction fs with
    | nil => rfl
    | cons f fs ih => simp [gatewayInfoSession, processGatewayInfo, ih]

/-! ## WS90 lemmas -/

theorem any_key_eq_contains {α : Type} (l : List (String × α)) (k : String) :
    l.any (fun p => p.1 = k) = (l.map Prod.fst).contains k := by
  induction l with
  | nil => rfl
  | cons a l ih =>
    simp only [List.any_cons, List.map_cons, List.contains_cons, ih]
    congr 1
    by_cases h : a.1 = k
    · simp [h]
    · simp [h, Ne.symm h]

theorem extractWs90_isSome (rain : List RainItem)
    (h : ∃ i ∈ rain, ws90Qualifies i = true) :
    (extractWs90Metadata rain).isSome := by
  unfold extractWs90Metadata
  suffices hgen : ∀ acc : Option Ws90Meta,
      (acc.isSome ∨ ∃ i ∈ rain, ws90Qualifies i = true) →
      (rain.foldl
        (fun acc item =>
          if ws90Qualifies item then
            some { battery := item.battery.getD "", voltage := item.voltage,
                   ws90capVolt := item.ws90capVolt,
                   ws90Ver := item.ws90Ver.getD "" }
          else acc) acc).isSome from
    hgen none (Or.inr h)
  clear h
  induction rain with
  | nil =>
    intro acc hacc
    rcases hacc with h1 | ⟨i, hi, _⟩
    · exact h1
    · exact absurd hi (List.not_mem_nil i)
  | cons a rain ih =>
    intro acc hacc
    simp only [List.foldl_cons]
    by_cases hq : ws90Qualifies a
    · exact ih _ (Or.inl (by simp [hq]))
    · apply ih
      rcases hacc with h1 | ⟨i, hi, hqi⟩
      · exact Or.inl (by simpa [hq] using h1)
      · rcases List.mem_cons.mp hi with rfl | hi'
        · exact absurd hqi (by simpa using hq)
        · exact Or.inr ⟨i, hi', hqi⟩

theorem extractWs90_ver (rain : List RainItem) (m : Ws90Meta)
    (h : extractWs90Metadata rain = some m) : m.ws90Ver ≠ "" := by
  unfold extractWs90Metadata at h
  suffices hgen : ∀ acc : Option Ws90Meta,
      (∀ m', acc = some m' → m'.ws90Ver ≠ "") →
      (rain.foldl
        (fun acc item =>
          if ws90Qualifies item then
            some { battery := item.battery.getD "", voltage := item.voltage,
                   ws90capVolt := item.ws90capVolt,
                   ws90Ver := item.ws90Ver.getD "" }
          else acc) acc) = some m → m.ws90Ver ≠ "" from
    hgen none (by intro m' hm'; exact absurd hm' (by simp)) h
  clear h
  induction rain with
  | nil =>
    intro acc hacc h
    exact hacc m h
  | cons a rain ih =>
    intro acc hacc h
    simp only [List.foldl_cons] at h
    by_cases hq : ws90Qualifies a
    · refine ih _ ?_ h
      intro m' hm'
      rw [if_pos hq] at hm'
      cases hm'
      have : truthyOptStr a.ws90Ver = true := by
        unfold ws90Qualifies at hq
        simp only [decide_eq_true_eq] at hq
        simpa using hq.2.2.2
      cases hvz : a.ws90Ver with
      | none => rw [hvz] at this; exact absurd this (by simp [truthyOptStr])
      | some v =>
        rw [hvz] at this
        simpa [truthyOptStr, hvz] using this
    · refine ih _ ?_ h
      intro m' hm'
      rw [if_neg hq] at hm'
      exact hacc m' hm'

theorem findWh90_mem (l : List (String × HwInfo)) (h : String)
    (hf : findWh90 l = some h) : h ∈ l.map Prod.fst := by
  induction l with
  | nil => exact absurd hf (by simp [findWh90])
  | cons a l ih =>
    unfold findWh90 at hf
    split at hf
    · cases hf
      simp
    · simp only [List.map_cons, List.mem_cons]
      exact Or.inr (ih hf)

/-- Claim C5 (confirmed): a rain-section item carrying truthy `battery` and
`ws90_ver` fields yields WS90 metadata; handling it installs exactly one
synthetic unit record in the mapper (one new hardware id appended, or the
single reused misidentified id updated in place), and the ambiguous wire
keys `"3"` and `"5"` both resolve to that unit's hardware id while the
gateway-ownership rule cedes them for the cycle. -/
theorem ws90_synthetic_unit :
    (∀ rain : List RainItem, (∃ i ∈ rain, ws90Qualifies i = true) →
      (extractWs90Metadata rain).isSome) ∧
    (∀ (gs : String → Bool) (st : MapperState) (rain : List RainItem)
        (m : Ws90Meta),
      gs "3" = false → gs "5" = false →
      (∀ p ∈ st.sensorInfo, p.1 ≠ "") →
      extractWs90Metadata rain = some m →
      ∃ wid : String, wid ≠ "" ∧
        ((handleWs90Device st m).sensorInfo.map Prod.fst =
          if (st.sensorInfo.map Prod.fst).contains wid then
            st.sensorInfo.map Prod.fst
          else st.sensorInfo.map Prod.fst ++ [wid]) ∧
        mapperGetHardwareId (handleWs90Device st m) "3" = some wid ∧
        mapperGetHardwareId (handleWs90Device st m) "5" = some wid ∧
        isGatewaySensor gs "3" true = false ∧
        isGatewaySensor gs "5" true = false) := by
  constructor
  · exact extractWs90_isSome
  · intro gs st rain m h3 h5 hclean hmeta
    have hver : m.ws90Ver ≠ "" := extractWs90_ver rain m hmeta
    have hgw3 : isGatewaySensor gs "3" true = false := by
      simp [isGatewaySensor, h3, ws90HexSensors, ws90HexIdSensors]
    have hgw5 : isGatewaySensor gs "5" true = false := by
      simp [isGatewaySensor, h5, ws90HexSensors, ws90HexIdSensors]
    cases hw : findWh90 st.sensorInfo with
    | some h =>
      have hmem : h ∈ st.sensorInfo.map Prod.fst := findWh90_mem _ _ hw
      have hne : h ≠ "" := by
        obtain ⟨p, hp, hph⟩ : ∃ p ∈ st.sensorInfo, p.1 = h := by
          simpa [List.mem_map] using hmem
        exact hph ▸ hclean p hp
      have hdev : handleWs90Device st m =
          { sensorInfo :=
              dictInsert
                (st.sensorInfo.map
                  (fun p =>
                    if p.1 = h then
                      (p.1, { p.2 with deviceModel := some "ws90",
                                       sensorType := "WS90" })
                    else p)) h (mkWs90Info m),
            hardwareMapping :=
              ws90HexIdSensors.foldl (fun mm k => dictInsert mm k h)
                st.hardwareMapping } := by
        unfold handleWs90Device getOrGenerateWs90HardwareId
        rw [hw]
        dsimp only
        rw [if_neg hne]
      have hkeysX :
          ((st.sensorInfo.map
            (fun p =>
              if p.1 = h then
                (p.1, { p.2 with deviceModel := some "ws90",
                                 sensorType := "WS90" })
              else p)).map Prod.fst) = st.sensorInfo.map Prod.fst := by
        rw [List.map_map]
        apply List.map_congr_left
        intro p _
        by_cases hp : p.1 = h <;> simp [hp]
      have hcont : (st.sensorInfo.map Prod.fst).contains h = true :=
        List.elem_iff.mpr hmem
      refine ⟨h, hne, ?_, ?_, ?_, hgw3, hgw5⟩
      · rw [hdev]
        dsimp only
        rw [dictInsert_keys, any_key_eq_contains, hkeysX, hcont]
      · rw [hdev]
        simp only [mapperGetHardwareId]
        rw [dictGet_foldl_insert, if_pos (by decide)]
      · rw [hdev]
        simp only [mapperGetHardwareId]
        rw [dictGet_foldl_insert, if_pos (by decide)]
    | none =>
      have hwid :
          ("D" ++ String.mk
            (if m.ws90Ver.data.length ≥ 3 then
              m.ws90Ver.data.drop (m.ws90Ver.data.length - 3)
            else m.ws90Ver.data)) ≠ "" := by
        apply string_ne_of_length_ne
        rw [String.length_append]
        intro hlen
        have h1 : ("D" : String).length = 1 := rfl
        have h0 : ("" : String).length = 0 := rfl
        omega
      have hdev : handleWs90Device st m =
          { sensorInfo :=
              dictInsert st.sensorInfo
                ("D" ++ String.mk
                  (if m.ws90Ver.data.length ≥ 3 then
                    m.ws90Ver.data.drop (m.ws90Ver.data.length - 3)
                  else m.ws90Ver.data)) (mkWs90Info m),
            hardwareMapping :=
              ws90HexIdSensors.foldl
                (fun mm k =>
                  dictInsert mm k
                    ("D" ++ String.mk
                      (if m.ws90Ver.data.length ≥ 3 then
                        m.ws90Ver.data.drop (m.ws90Ver.data.length - 3)
                      else m.ws90Ver.data)))
                st.hardwareMapping } := by
        unfold handleWs90Device getOrGenerateWs90HardwareId
        rw [hw]
        dsimp only
        rw [if_pos hver]
        dsimp only
        rw [if_neg hwid]
      refine ⟨_, hwid, ?_, ?_, ?_, hgw3, hgw5⟩
      · rw [hdev]
        dsimp only
        rw [dictInsert_keys, any_key_eq_contains]
      · rw [hdev]
        simp only [mapperGetHardwareId]
        rw [dictGet_foldl_insert, if_pos (by decide)]
      · rw [hdev]
        simp only [mapperGetHardwareId]
        rw [dictGet_foldl_insert, if_pos (by decide)]

/-- Concrete rain item for exercising the WS90 path. -/
def rainItemW : RainItem :=
  { id := some "srain_piezo", val := some "0.0", battery := some "5",
    voltage := none, ws90capVolt := none, ws90Ver := some "ver158" }

/-- The WS90 metadata captured from `rainItemW`. -/
def metaW : Ws90Meta :=
  { battery := "5", voltage := none, ws90capVolt := none, ws90Ver := "ver158" }

/-- An empty mapper state. -/
def stW : MapperState := { sensorInfo := [], hardwareMapping := [] }

/-- A gateway-sensor table owning no keys. -/
def gsW : String → Bool := fun _ => false

theorem ws90_synthetic_unit_witness :
    (extractWs90Metadata [rainItemW]).isSome ∧
    (∃ wid : String, wid ≠ "" ∧
      ((handleWs90Device stW metaW).sensorInfo.map Prod.fst =
        if (stW.sensorInfo.map Prod.fst).contains wid then
          stW.sensorInfo.map Prod.fst
        else stW.sensorInfo.map Prod.fst ++ [wid]) ∧
      mapperGetHardwareId (handleWs90Device stW metaW) "3" = some wid ∧
      mapperGetHardwareId (handleWs90Device stW metaW) "5" = some wid ∧
      isGatewaySensor gsW "3" true = false ∧
      isGatewaySensor gsW "5" true = false) :=
  ⟨ws90_synthetic_unit.1 [rainItemW] ⟨rainItemW, by simp, by decide⟩,
   ws90_synthetic_unit.2 gsW stW [rainItemW] metaW rfl rfl (by simp [stW])
     (by decide)⟩

/-! ## Loop lemmas and concrete tables -/

theorem processItem_ok (tables : ConstTables) (mapper : MapperOracle)
    (includeInactive ws90Present : Bool) (sd : SensorsData) (key v : String)
    (hid : Option String) (eid nm : String)
    (hkey : key ≠ "")
    (hval : ¬(v = "" ∧ ¬ includeInactive))
    (hhid : (if isGatewaySensor tables.gatewaySensors key ws90Present then
        pure none else mapper.getHardwareId key) = Except.ok hid)
    (heid : mapper.generateEntityId key hid = Except.ok (eid, nm)) :
    processItem tables mapper includeInactive ws90Present sd ⟨key, v⟩ =
      Except.ok (dictInsert sd eid
        (loopReading tables mapper key v hid eid nm)) := by
  unfold processItem
  dsimp only
  rw [if_neg hkey, if_neg hval]
  by_cases hgw : isGatewaySensor tables.gatewaySensors key ws90Present
  · rw [if_pos hgw] at hhid
    have hhid' : hid = none := by
      have h := hhid
      simp only [pure, Except.pure, Except.ok.injEq] at h
      exact h.symm
    subst hhid'
    rw [if_pos hgw]
    show mapper.generateEntityId key none >>= (fun d =>
      Except.ok (dictInsert sd d.1
        (loopReading tables mapper key v none d.1 d.2))) = _
    rw [heid]
    rfl
  · rw [if_neg hgw] at hhid
    rw [if_neg hgw, hhid]
    show mapper.generateEntityId key hid >>= (fun d =>
      Except.ok (dictInsert sd d.1
        (loopReading tables mapper key v hid d.1 d.2))) = _
    rw [heid]
    rfl

/-- Const tables with no members at all (every key gateway-defaulted). -/
def tablesW : ConstTables :=
  { sensorTypes := fun _ => none, batterySensors := fun _ => false,
    systemSensors := fun _ => none, gatewaySensors := fun _ => false }

/-- Const tables declaring `soilbatt1` a battery wire key. -/
def tablesB : ConstTables :=
  { sensorTypes := fun _ => none,
    batterySensors := fun k => k == "soilbatt1",
    systemSensors := fun _ => none, gatewaySensors := fun _ => false }

/-- A mapper oracle with pure, never-raising lookups. -/
def mapperW : MapperOracle :=
  { getHardwareId := fun _ => Except.ok none,
    generateEntityId := fun k _ => Except.ok ("e_" ++ k, k),
    getSensorInfo := fun _ => none }

/-- A mapper oracle whose entity-id derivation raises on wire key `"k2"`. -/
def mapperBad : MapperOracle :=
  { getHardwareId := fun _ => Except.ok none,
    generateEntityId := fun k _ =>
      if k == "k2" then Except.error .err else Except.ok ("e_" ++ k, k),
    getSensorInfo := fun _ => none }

/-- Claim C3 (counterexample): the wire key `soilbatt1`, a member of the
battery table, is stored with category `"diagnostic"` — the loop deliberately
moves battery readings to the diagnostic category (coordinator.py:325-329) —
refuting the claimed category `"battery"`. -/
theorem category_battery_diagnostic_cex :
    ∃ sd : SensorsData,
      processItem tablesB mapperW false false [] ⟨"soilbatt1", "1"⟩ =
        Except.ok sd ∧
      (dictGet sd "e_soilbatt1").map Reading.category = some "diagnostic" ∧
      ("diagnostic" : String) ≠ "battery" := by
  refine ⟨_, rfl, ?_, by decide⟩
  decide

/-- Claim C3 (amended): a processed pair's category is `"diagnostic"` when
the wire key is a battery-table member (battery readings are deliberately
reclassified as diagnostic), `"system"` when a system-table member, and the
default `"sensor"` otherwise — the category domain of the loop being
sensor | system | diagnostic; the loop stores exactly this reading under
the derived entity id. -/
theorem category_classification_amended :
    (∀ (tables : ConstTables) (mapper : MapperOracle) (key v : String)
        (hid : Option String) (eid nm : String),
      (loopReading tables mapper key v hid eid nm).category =
        if tables.batterySensors key then "diagnostic"
        else
          match tables.systemSensors key with
          | some _ => "system"
          | none => "sensor") ∧
    (∀ (tables : ConstTables) (mapper : MapperOracle) (inc ws90 : Bool)
        (sd : SensorsData) (key v : String) (hid : Option String)
        (eid nm : String),
      key ≠ "" → ¬(v = "" ∧ ¬ inc) →
      (if isGatewaySensor tables.gatewaySensors key ws90 then pure none
        else mapper.getHardwareId key) = Except.ok hid →
      mapper.generateEntityId key hid = Except.ok (eid, nm) →
      processItem tables mapper inc ws90 sd ⟨key, v⟩ =
        Except.ok (dictInsert sd eid (loopReading tables mapper key v hid eid nm))) := by
  constructor
  · intro tables mapper key v hid eid nm
    by_cases hb : tables.batterySensors key
    · simp [loopReading, hb]
    · cases hsys : tables.systemSensors key <;> simp [loopReading, hb, hsys]
  · intro tables mapper inc ws90 sd key v hid eid nm hkey hval hhid heid
    exact processItem_ok tables mapper inc ws90 sd key v hid eid nm hkey hval
      hhid heid

theorem category_classification_amended_witness :
    processItem tablesB mapperW false false [] ⟨"humi1", "45"⟩ =
      Except.ok (dictInsert [] "e_humi1"
        (loopReading tablesB mapperW "humi1" "45" none "e_humi1" "humi1")) :=
  category_classification_amended.2 tablesB mapperW false false [] "humi1"
    "45" none "e_humi1" "humi1" (by decide) (by simp) rfl rfl

/-- Claim C7 (confirmed): for a battery-classified wire key with a
digit-only raw value, the loop converts a 0-5 code by `value * 20` into a
percentage (`"3"` ↦ `"60"`) and passes a value above 5 through unchanged
(`"80"` ↦ `"80"`), storing the result as the reading's state. -/
theorem battery_scale_conversion :
    (∀ v : String, pyIsdigit v = true → digitsToNat v ≤ 5 →
      batteryScaleValue v = toString (digitsToNat v * 20)) ∧
    (∀ v : String, pyIsdigit v = true → 5 < digitsToNat v →
      batteryScaleValue v = v) ∧
    batteryScaleValue "3" = "60" ∧
    batteryScaleValue "80" = "80" ∧
    (∀ (tables : ConstTables) (mapper : MapperOracle) (key v : String)
        (hid : Option String) (eid nm : String),
      tables.batterySensors key = true → v ≠ "" → pyIsdigit v = true →
      (loopReading tables mapper key v hid eid nm).state =
        some (.str (batteryScaleValue v))) := by
  refine ⟨?_, ?_, by decide, by decide, ?_⟩
  · intro v _ hle
    unfold batteryScaleValue
    rw [if_pos hle]
  · intro v _ hgt
    unfold batteryScaleValue
    rw [if_neg (by omega)]
  · intro tables mapper key v hid eid nm hb hv hd
    simp [loopReading, hb, hv, hd]

theorem battery_scale_conversion_witness :
    batteryScaleValue "4" = toString (digitsToNat "4" * 20) ∧
    batteryScaleValue "95" = "95" ∧
    (loopReading tablesB mapperW "soilbatt1" "80" none "e_soilbatt1"
      "soilbatt1").state = some (.str (batteryScaleValue "80")) :=
  ⟨battery_scale_conversion.1 "4" (by decide) (by decide),
   battery_scale_conversion.2.1 "95" (by decide) (by decide),
   battery_scale_conversion.2.2.2.2 tablesB mapperW "soilbatt1" "80" none
     "e_soilbatt1" "soilbatt1" (by decide) (by decide) (by decide)⟩

/-- Claim C1 (counterexample): with a mapper whose entity-id derivation
raises on wire key `"k2"`, the three-item batch `k1, k2, k3` produces no
reading at all — the loop has no per-item handler, so the exception aborts
the whole cycle instead of leaving `k1`/`k3` readings in the output. -/
theorem batch_abort_cex :
    processItems tablesW mapperBad false false
      [⟨"k1", "1"⟩, ⟨"k2", "2"⟩, ⟨"k3", "3"⟩] [] = Except.error .err ∧
    ∀ sd : SensorsData,
      processItems tablesW mapperBad false false
        [⟨"k1", "1"⟩, ⟨"k2", "2"⟩, ⟨"k3", "3"⟩] [] ≠ Except.ok sd := by
  have h1 : processItems tablesW mapperBad false false
      [⟨"k1", "1"⟩, ⟨"k2", "2"⟩, ⟨"k3", "3"⟩] [] = Except.error .err := by
    rfl
  exact ⟨h1, fun sd h => by rw [h1] at h; exact Except.noConfusion h⟩

/-- Claim C1 (amended): an exception raised during identity resolution
(`get_hardware_id` / `generate_entity_id`) for one pair propagates out of
the loop and aborts the entire batch — no reading survives, the coordinator
failing the whole update cycle — while value normalization can never raise
(its exceptions are all caught inside `_convert_sensor_value`), so a
normalization failure never aborts the batch. -/
theorem batch_abort_amended :
    (∀ (tables : ConstTables) (mapper : MapperOracle) (inc ws90 : Bool)
        (sd st : SensorsData) (pre post : List Item) (item : Item) (e : PyErr),
      processItems tables mapper inc ws90 pre sd = Except.ok st →
      processItem tables mapper inc ws90 st item = Except.error e →
      processItems tables mapper inc ws90 (pre ++ item :: post) sd =
        Except.error e) ∧
    (∀ v : Value, ∃ r, convertRun v = Except.ok r) := by
  constructor
  · intro tables mapper inc ws90 sd st pre post item e hpre hitem
    unfold processItems at hpre ⊢
    rw [List.foldlM_append, hpre]
    show List.foldlM _ st (item :: post) = Except.error e
    rw [List.foldlM_cons, hitem]
    rfl
  · exact convertRun_isOk

theorem batch_abort_amended_witness :
    processItems tablesW mapperBad false false
      ([⟨"k1", "1"⟩] ++ ⟨"k2", "2"⟩ :: [⟨"k9", "9"⟩]) [] = Except.error .err :=
  batch_abort_amended.1 tablesW mapperBad false false []
    [("e_k1",
      loopReading tablesW mapperBad "k1" "1" none "e_k1" "k1")]
    [⟨"k1", "1"⟩] [⟨"k9", "9"⟩] ⟨"k2", "2"⟩ .err rfl rfl

/-! ## Diagnostic-synthesis lemmas (claim C2) -/

/-- How many of the three per-unit diagnostic entity ids for hardware id `h`
are present in `sd`. -/
def countDiagFor (h : String) (sd : SensorsData) : Nat :=
  (sd.filter (fun p => p.1 = signalEntityId h ∨ p.1 = hardwareIdEntityId h ∨
    p.1 = channelEntityId h)).length

theorem signalEntityId_length (h : String) :
    (signalEntityId h).length = 31 + (pyToLower h).length := by
  rw [signalEntityId, String.length_append,
    show ("sensor.ecowitt_signal_strength_" : String).length = 31 from rfl]

theorem hardwareIdEntityId_length (h : String) :
    (hardwareIdEntityId h).length = 27 + (pyToLower h).length := by
  rw [hardwareIdEntityId, String.length_append,
    show ("sensor.ecowitt_hardware_id_" : String).length = 27 from rfl]

theorem channelEntityId_length (h : String) :
    (channelEntityId h).length = 23 + (pyToLower h).length := by
  rw [channelEntityId, String.length_append,
    show ("sensor.ecowitt_channel_" : String).length = 23 from rfl]

/-- A mapper record whose signal is the offline sentinel `"--"`. -/
def infoCex : String → Option HwInfo := fun x =>
  if x = "AA" then
    some { sensorType := "WH51", channel := some "1",
           deviceModel := some "wh51", battery := some "100",
           signal := some "--" }
  else none

/-- A reading owned by hardware unit `AA`. -/
def readingCex : Reading :=
  { entityId := "e1", name := "Soil Moisture", state := some (.int 45),
    unit := some "%", deviceClass := some "moisture", category := "sensor",
    sensorKey := "soilmoisture1", hardwareId := some "AA",
    rawValue := .str "45", details := none }

/-- Claim C2 (counterexample): hardware unit `AA` is present with a known
channel but its signal is the `"--"` sentinel, so the synthesis pass adds
only the hardware-id and channel diagnostics — two readings, not the claimed
exactly three. -/
theorem diag_exactly_three_cex :
    countDiagFor "AA"
      (addDiagnosticAndSignalSensors infoCex [("e1", readingCex)]) = 2 ∧
    (2 : Nat) ≠ 3 := by
  constructor
  · rfl
  · decide

/-- A mapper record with truthy channel and good signal. -/
def hiW : HwInfo :=
  { sensorType := "WH51", channel := some "2", deviceModel := some "wh51",
    battery := some "80", signal := some "4" }

/-- The truthy hardware id of a reading: the synthesis pass skips both
`None` and the empty string (`if not hardware_id`, coordinator.py:408). -/
def truthyHid (r : Reading) : Option String :=
  match r.hardwareId with
  | some h => if h = "" then none else some h
  | none => none

/-- The three per-unit diagnostic entity ids for hardware id `h`. -/
def diagKeysOf (h : String) : List String :=
  [signalEntityId h, hardwareIdEntityId h, channelEntityId h]

/-- The diagnostic entries the synthesis pass produces for hardware id `h`
given its mapper record: none without a record or a truthy channel,
otherwise the hardware-id and channel entries, preceded by the
signal-strength entry when the signal is truthy and not `"--"`. -/
def diagEntriesFor (info : String → Option HwInfo) (h : String) : SensorsData :=
  match info h with
  | none => []
  | some hi =>
    if hi.channel.getD "" = "" then []
    else
      (if hi.signal.getD "" ≠ "" ∧ hi.signal.getD "" ≠ "--" then
        [(signalEntityId h, signalReading h (hi.signal.getD ""))]
      else []) ++
      [(hardwareIdEntityId h, hardwareIdReading h),
       (channelEntityId h, channelReading h (hi.channel.getD ""))]

/-- Folding dict assignment over a list of entries. -/
def insertAll (d : SensorsData) (es : SensorsData) : SensorsData :=
  es.foldl (fun d p => dictInsert d p.1 p.2) d

theorem truthyHid_ne_empty {r : Reading} {h : String}
    (hh : truthyHid r = some h) : h ≠ "" := by
  unfold truthyHid at hh
  cases hr : r.hardwareId with
  | none => rw [hr] at hh; exact absurd hh (by simp)
  | some h' =>
    rw [hr] at hh
    dsimp only at hh
    by_cases he : h' = ""
    · rw [if_pos he] at hh; exact absurd hh (by simp)
    · rw [if_neg he] at hh
      cases hh
      exact he

theorem addDiagStep_eq (info : String → Option HwInfo) (sd : SensorsData)
    (added : List String) (r : Reading) :
    addDiagStep info (sd, added) r =
      match truthyHid r with
      | none => (sd, added)
      | some h =>
        if h ∈ added then (sd, added)
        else if diagEntriesFor info h = [] then (sd, added)
        else (insertAll sd (diagEntriesFor info h), added ++ [h]) := by
  unfold addDiagStep truthyHid
  cases hr : r.hardwareId with
  | none => rfl
  | some h =>
    by_cases he : h = ""
    · simp [he]
    · by_cases hin : h ∈ added
      · have hct : added.contains h = true := List.elem_iff.mpr hin
        simp [he, hct, hin]
      · have hcf : ¬(added.contains h = true) := fun hcon =>
          hin (List.elem_iff.mp hcon)
        cases hi : info h with
        | none => simp [he, hcf, hin, diagEntriesFor, hi]
        | some hw =>
          by_cases hch : hw.channel.getD "" = ""
          · simp [he, hcf, hin, diagEntriesFor, hi, hch]
          · by_cases hs : hw.signal.getD "" ≠ "" ∧ hw.signal.getD "" ≠ "--"
            · simp [he, hcf, hin, diagEntriesFor, hi, hch, hs, insertAll]
            · simp [he, hcf, hin, diagEntriesFor, hi, hch, hs, insertAll]

theorem dictInsert_fresh {α : Type} (d : List (String × α)) (k : String)
    (v : α) (h : ∀ p ∈ d, p.1 ≠ k) : dictInsert d k v = d ++ [(k, v)] := by
  unfold dictInsert
  rw [if_neg]
  intro hcon
  obtain ⟨p, hp, hpk⟩ := List.any_eq_true.mp hcon
  exact h p hp (by simpa using hpk)

theorem dictInsert_mem_eq {α : Type} (d : List (String × α)) (k : String)
    (v : α) (hmem : (k, v) ∈ d)
    (huniq : ∀ p ∈ d, p.1 = k → p = (k, v)) : dictInsert d k v = d := by
  unfold dictInsert
  rw [if_pos (List.any_eq_true.mpr ⟨(k, v), hmem, by simp⟩)]
  have hmap : d.map (fun p => if p.1 = k then (k, v) else p) = d.map id := by
    apply List.map_congr_left
    intro p hp
    by_cases hpk : p.1 = k
    · rw [if_pos hpk]
      exact (huniq p hp hpk).symm
    · rw [if_neg hpk]
      rfl
  simpa using hmap

theorem insertAll_fresh :
    ∀ (es d : SensorsData), (∀ p ∈ es, ∀ q ∈ d, q.1 ≠ p.1) →
      ((es.map Prod.fst).Nodup) → insertAll d es = d ++ es := by
  intro es
  induction es with
  | nil => intro d _ _; simp [insertAll]
  | cons e es ih =>
    intro d hfresh hnodup
    simp only [insertAll, List.foldl_cons]
    have h1 : dictInsert d e.1 e.2 = d ++ [e] := by
      have := dictInsert_fresh d e.1 e.2
        (fun q hq => hfresh e (List.mem_cons_self e es) q hq)
      simpa using this
    rw [h1]
    have h2 := ih (d ++ [e]) ?_ ?_
    · simpa [insertAll, List.append_assoc] using h2
    · intro p hp q hq
      rcases List.mem_append.mp hq with hq1 | hq2
      · exact hfresh p (List.mem_cons_of_mem e hp) q hq1
      · have hqe : q = e := by simpa using hq2
        subst hqe
        simp only [List.map_cons, List.nodup_cons] at hnodup
        intro hcon
        exact hnodup.1 (hcon ▸ List.mem_map_of_mem Prod.fst hp)
    · simp only [List.map_cons, List.nodup_cons] at hnodup
      exact hnodup.2

theorem insertAll_noop :
    ∀ (es d : SensorsData), (d.map Prod.fst).Nodup → (∀ p ∈ es, p ∈ d) →
      insertAll d es = d := by
  intro es
  induction es with
  | nil => intro d _ _; rfl
  | cons e es ih =>
    intro d hnodup hsub
    simp only [insertAll, List.foldl_cons]
    have he : (e.1, e.2) ∈ d := by
      simpa using hsub e (List.mem_cons_self e es)
    have h1 : dictInsert d e.1 e.2 = d := by
      apply dictInsert_mem_eq d e.1 e.2 he
      intro p hp hpk
      exact List.inj_on_of_nodup_map hnodup hp he (by simpa using hpk)
    rw [h1]
    exact ih d hnodup (fun p hp => hsub p (List.mem_cons_of_mem e hp))

theorem append_ne_of_get_ne (p q x y : String) (i : Nat)
    (hip : i < p.data.length) (hiq : i < q.data.length)
    (hne : p.data.get ⟨i, hip⟩ ≠ q.data.get ⟨i, hiq⟩) : p ++ x ≠ q ++ y := by
  intro hcon
  have hd := congrArg String.data hcon
  simp only [String.data_append] at hd
  have h1 : (p.data ++ x.data)[i]? = (q.data ++ y.data)[i]? := by rw [hd]
  rw [List.getElem?_append_left hip, List.getElem?_append_left hiq,
    List.getElem?_eq_getElem hip, List.getElem?_eq_getElem hiq] at h1
  apply hne
  simpa [List.get_eq_getElem] using h1

theorem sig_ne_hw (h1 h2 : String) :
    signalEntityId h1 ≠ hardwareIdEntityId h2 := by
  unfold signalEntityId hardwareIdEntityId
  exact append_ne_of_get_ne _ _ _ _ 15 (by decide) (by decide) (by decide)

theorem sig_ne_ch (h1 h2 : String) :
    signalEntityId h1 ≠ channelEntityId h2 := by
  unfold signalEntityId channelEntityId
  exact append_ne_of_get_ne _ _ _ _ 15 (by decide) (by decide) (by decide)

theorem hw_ne_ch (h1 h2 : String) :
    hardwareIdEntityId h1 ≠ channelEntityId h2 := by
  unfold hardwareIdEntityId channelEntityId
  exact append_ne_of_get_ne _ _ _ _ 15 (by decide) (by decide) (by decide)

theorem string_append_left_cancel {p a b : String} (h : p ++ a = p ++ b) :
    a = b := by
  have hd := congrArg String.data h
  simp only [String.data_append] at hd
  exact String.ext (List.append_cancel_left hd)

theorem sig_inj {h1 h2 : String}
    (h : signalEntityId h1 = signalEntityId h2) :
    pyToLower h1 = pyToLower h2 := by
  unfold signalEntityId at h
  exact string_append_left_cancel h

theorem hw_inj {h1 h2 : String}
    (h : hardwareIdEntityId h1 = hardwareIdEntityId h2) :
    pyToLower h1 = pyToLower h2 := by
  unfold hardwareIdEntityId at h
  exact string_append_left_cancel h

theorem ch_inj {h1 h2 : String}
    (h : channelEntityId h1 = channelEntityId h2) :
    pyToLower h1 = pyToLower h2 := by
  unfold channelEntityId at h
  exact string_append_left_cancel h

theorem diagKeysOf_disjoint {h1 h2 : String}
    (hne : pyToLower h1 ≠ pyToLower h2) :
    ∀ k ∈ diagKeysOf h1, k ∉ diagKeysOf h2 := by
  intro k hk1 hk2
  simp only [diagKeysOf, List.mem_cons, List.not_mem_nil, or_false] at hk1 hk2
  rcases hk1 with rfl | rfl | rfl
  · rcases hk2 with h | h | h
    · exact hne (sig_inj h)
    · exact sig_ne_hw h1 h2 h
    · exact sig_ne_ch h1 h2 h
  · rcases hk2 with h | h | h
    · exact sig_ne_hw h2 h1 h.symm
    · exact hne (hw_inj h)
    · exact hw_ne_ch h1 h2 h
  · rcases hk2 with h | h | h
    · exact sig_ne_ch h2 h1 h.symm
    · exact hw_ne_ch h2 h1 h.symm
    · exact hne (ch_inj h)

theorem diagEntriesFor_key_mem (info : String → Option HwInfo) (h : String) :
    ∀ p ∈ diagEntriesFor info h, p.1 ∈ diagKeysOf h := by
  intro p hp
  unfold diagEntriesFor at hp
  cases hi : info h with
  | none => rw [hi] at hp; exact absurd hp (by simp)
  | some hw =>
    rw [hi] at hp
    dsimp only at hp
    by_cases hch : hw.channel.getD "" = ""
    · rw [if_pos hch] at hp; exact absurd hp (by simp)
    · rw [if_neg hch] at hp
      rcases List.mem_append.mp hp with h1 | h1
      · by_cases hs : hw.signal.getD "" ≠ "" ∧ hw.signal.getD "" ≠ "--"
        · rw [if_pos hs] at h1
          have : p = (signalEntityId h, signalReading h (hw.signal.getD "")) := by
            simpa using h1
          subst this
          simp [diagKeysOf]
        · rw [if_neg hs] at h1
          exact absurd h1 (by simp)
      · rcases List.mem_cons.mp h1 with h2 | h2
        · subst h2; simp [diagKeysOf]
        · have : p = (channelEntityId h, channelReading h (hw.channel.getD "")) := by
            simpa using h2
          subst this
          simp [diagKeysOf]

theorem diagEntriesFor_keys_nodup (info : String → Option HwInfo)
    (h : String) : ((diagEntriesFor info h).map Prod.fst).Nodup := by
  unfold diagEntriesFor
  cases info h with
  | none => simp
  | some hw =>
    dsimp only
    by_cases hch : hw.channel.getD "" = ""
    · simp [hch]
    · rw [if_neg hch]
      by_cases hs : hw.signal.getD "" ≠ "" ∧ hw.signal.getD "" ≠ "--"
      · simp [hs, sig_ne_hw h h, sig_ne_ch h h, hw_ne_ch h h]
      · simp [hs, hw_ne_ch h h]

theorem diagEntriesFor_hid (info : String → Option HwInfo) (h : String)
    (hne : h ≠ "") : ∀ p ∈ diagEntriesFor info h, truthyHid p.2 = some h := by
  intro p hp
  unfold diagEntriesFor at hp
  cases hi : info h with
  | none => rw [hi] at hp; exact absurd hp (by simp)
  | some hw =>
    rw [hi] at hp
    dsimp only at hp
    by_cases hch : hw.channel.getD "" = ""
    · rw [if_pos hch] at hp; exact absurd hp (by simp)
    · rw [if_neg hch] at hp
      rcases List.mem_append.mp hp with h1 | h1
      · by_cases hs : hw.signal.getD "" ≠ "" ∧ hw.signal.getD "" ≠ "--"
        · rw [if_pos hs] at h1
          have : p = (signalEntityId h, signalReading h (hw.signal.getD "")) := by
            simpa using h1
          subst this
          simp [truthyHid, signalReading, hne]
        · rw [if_neg hs] at h1
          exact absurd h1 (by simp)
      · rcases List.mem_cons.mp h1 with h2 | h2
        · subst h2; simp [truthyHid, hardwareIdReading, hne]
        · have : p = (channelEntityId h, channelReading h (hw.channel.getD "")) := by
            simpa using h2
          subst this
          simp [truthyHid, channelReading, hne]

theorem diagEntriesFor_ne (info : String → Option HwInfo) (h : String)
    (hi : HwInfo) (hhi : info h = some hi)
    (hch : hi.channel.getD "" ≠ "") : diagEntriesFor info h ≠ [] := by
  simp [diagEntriesFor, hhi, hch]

theorem diagEntriesFor_empty (info : String → Option HwInfo) (h : String)
    (hz : info h = none ∨ ∃ hi, info h = some hi ∧ hi.channel.getD "" = "") :
    diagEntriesFor info h = [] := by
  rcases hz with h1 | ⟨hi, h1, h2⟩
  · simp [diagEntriesFor, h1]
  · simp [diagEntriesFor, h1, h2]

theorem diagEntriesFor_length (info : String → Option HwInfo) (h : String)
    (hi : HwInfo) (hhi : info h = some hi)
    (hch : hi.channel.getD "" ≠ "") :
    (diagEntriesFor info h).length =
      if hi.signal.getD "" ≠ "" ∧ hi.signal.getD "" ≠ "--" then 3 else 2 := by
  unfold diagEntriesFor
  rw [hhi]
  dsimp only
  rw [if_neg hch]
  by_cases hs : hi.signal.getD "" ≠ "" ∧ hi.signal.getD "" ≠ "--" <;> simp [hs]

/-- The entries and hardware ids the synthesis pass appends when folded over
the readings `rs` with the already-covered set `added`: first occurrence of
each truthy hardware id not yet covered contributes its diagnostic block
(when non-empty) and marks the id covered. -/
def diagNew (info : String → Option HwInfo) :
    List Reading → List String → SensorsData × List String
  | [], _ => ([], [])
  | r :: rs, added =>
    match truthyHid r with
    | none => diagNew info rs added
    | some h =>
      if h ∈ added then diagNew info rs added
      else if diagEntriesFor info h = [] then diagNew info rs added
      else
        (diagEntriesFor info h ++ (diagNew info rs (added ++ [h])).1,
          h :: (diagNew info rs (added ++ [h])).2)

theorem diagNew_cons (info : String → Option HwInfo) (r : Reading)
    (rs : List Reading) (added : List String) :
    diagNew info (r :: rs) added =
      match truthyHid r with
      | none => diagNew info rs added
      | some h =>
        if h ∈ added then diagNew info rs added
        else if diagEntriesFor info h = [] then diagNew info rs added
        else
          (diagEntriesFor info h ++ (diagNew info rs (added ++ [h])).1,
            h :: (diagNew info rs (added ++ [h])).2) := rfl

theorem diagNew_added_disjoint (info : String → Option HwInfo) :
    ∀ (rs : List Reading) (added : List String) (x : String),
      x ∈ (diagNew info rs added).2 → x ∉ added := by
  intro rs
  induction rs with
  | nil => intro added x hx; exact absurd hx (by simp [diagNew])
  | cons r rs ih =>
    intro added x hx
    unfold diagNew at hx
    cases hth : truthyHid r with
    | none => rw [hth] at hx; exact ih added x hx
    | some h =>
      rw [hth] at hx
      dsimp only at hx
      by_cases hmem : h ∈ added
      · rw [if_pos hmem] at hx; exact ih added x hx
      · rw [if_neg hmem] at hx
        by_cases hemp : diagEntriesFor info h = []
        · rw [if_pos hemp] at hx; exact ih added x hx
        · rw [if_neg hemp] at hx
          rcases List.mem_cons.mp (by simpa using hx) with rfl | hx2
          · exact hmem
          · intro hcon
            exact (ih (added ++ [h]) x hx2) (List.mem_append_left _ hcon)

theorem diagNew_entries_ne (info : String → Option HwInfo) :
    ∀ (rs : List Reading) (added : List String) (x : String),
      x ∈ (diagNew info rs added).2 → diagEntriesFor info x ≠ [] := by
  intro rs
  induction rs with
  | nil => intro added x hx; exact absurd hx (by simp [diagNew])
  | cons r rs ih =>
    intro added x hx
    unfold diagNew at hx
    cases hth : truthyHid r with
    | none => rw [hth] at hx; exact ih added x hx
    | some h =>
      rw [hth] at hx
      dsimp only at hx
      by_cases hmem : h ∈ added
      · rw [if_pos hmem] at hx; exact ih added x hx
      · rw [if_neg hmem] at hx
        by_cases hemp : diagEntriesFor info h = []
        · rw [if_pos hemp] at hx; exact ih added x hx
        · rw [if_neg hemp] at hx
          rcases List.mem_cons.mp (by simpa using hx) with rfl | hx2
          · exact hemp
          · exact ih (added ++ [h]) x hx2

theorem diagNew_present (info : String → Option HwInfo) :
    ∀ (rs : List Reading) (added : List String) (x : String),
      x ∈ (diagNew info rs added).2 → ∃ r ∈ rs, truthyHid r = some x := by
  intro rs
  induction rs with
  | nil => intro added x hx; exact absurd hx (by simp [diagNew])
  | cons r rs ih =>
    intro added x hx
    unfold diagNew at hx
    cases hth : truthyHid r with
    | none =>
      rw [hth] at hx
      obtain ⟨r', hr', h'⟩ := ih added x hx
      exact ⟨r', List.mem_cons_of_mem r hr', h'⟩
    | some h =>
      rw [hth] at hx
      dsimp only at hx
      by_cases hmem : h ∈ added
      · rw [if_pos hmem] at hx
        obtain ⟨r', hr', h'⟩ := ih added x hx
        exact ⟨r', List.mem_cons_of_mem r hr', h'⟩
      · rw [if_neg hmem] at hx
        by_cases hemp : diagEntriesFor info h = []
        · rw [if_pos hemp] at hx
          obtain ⟨r', hr', h'⟩ := ih added x hx
          exact ⟨r', List.mem_cons_of_mem r hr', h'⟩
        · rw [if_neg hemp] at hx
          rcases List.mem_cons.mp (by simpa using hx) with rfl | hx2
          · exact ⟨r, List.mem_cons_self r rs, hth⟩
          · obtain ⟨r', hr', h'⟩ := ih (added ++ [h]) x hx2
            exact ⟨r', List.mem_cons_of_mem r hr', h'⟩

theorem diagNew_mem (info : String → Option HwInfo) :
    ∀ (rs : List Reading) (added : List String) (h : String),
      h ∉ added → (∃ r ∈ rs, truthyHid r = some h) →
      diagEntriesFor info h ≠ [] → h ∈ (diagNew info rs added).2 := by
  intro rs
  induction rs with
  | nil =>
    intro added h _ hex _
    obtain ⟨r, hr, _⟩ := hex
    exact absurd hr (List.not_mem_nil r)
  | cons r rs ih =>
    intro added h hnmem hex hne
    obtain ⟨r', hr', hth'⟩ := hex
    unfold diagNew
    cases hth : truthyHid r with
    | none =>
      dsimp only
      rcases List.mem_cons.mp hr' with rfl | hr2
      · rw [hth] at hth'; exact absurd hth' (by simp)
      · exact ih added h hnmem ⟨r', hr2, hth'⟩ hne
    | some h0 =>
      dsimp only
      by_cases hmem : h0 ∈ added
      · rw [if_pos hmem]
        rcases List.mem_cons.mp hr' with rfl | hr2
        · rw [hth] at hth'
          cases hth'
          exact absurd hmem hnmem
        · exact ih added h hnmem ⟨r', hr2, hth'⟩ hne
      · rw [if_neg hmem]
        by_cases hemp : diagEntriesFor info h0 = []
        · rw [if_pos hemp]
          rcases List.mem_cons.mp hr' with rfl | hr2
          · rw [hth] at hth'
            cases hth'
            exact absurd hemp hne
          · exact ih added h hnmem ⟨r', hr2, hth'⟩ hne
        · rw [if_neg hemp]
          by_cases heq : h = h0
          · subst heq
            simp
          · rcases List.mem_cons.mp hr' with rfl | hr2
            · rw [hth] at hth'
              cases hth'
              exact absurd rfl heq
            · have h1 : h ∉ added ++ [h0] := by
                intro hcon
                rcases List.mem_append.mp hcon with hc | hc
                · exact hnmem hc
                · exact heq (by simpa using hc)
              have := ih (added ++ [h0]) h h1 ⟨r', hr2, hth'⟩ hne
              simp [this]

theorem diagNew_block_subset (info : String → Option HwInfo) :
    ∀ (rs : List Reading) (added : List String) (x : String),
      x ∈ (diagNew info rs added).2 →
      ∀ p ∈ diagEntriesFor info x, p ∈ (diagNew info rs added).1 := by
  intro rs
  induction rs with
  | nil => intro added x hx; exact absurd hx (by simp [diagNew])
  | cons r rs ih =>
    intro added x hx p hp
    cases hth : truthyHid r with
    | none =>
      unfold diagNew at hx ⊢
      rw [hth] at hx ⊢
      exact ih added x hx p hp
    | some h =>
      unfold diagNew at hx ⊢
      rw [hth] at hx ⊢
      dsimp only at hx ⊢
      by_cases hmem : h ∈ added
      · rw [if_pos hmem] at hx ⊢; exact ih added x hx p hp
      · rw [if_neg hmem] at hx ⊢
        by_cases hemp : diagEntriesFor info h = []
        · rw [if_pos hemp] at hx ⊢; exact ih added x hx p hp
        · rw [if_neg hemp] at hx ⊢
          rcases List.mem_cons.mp (by simpa using hx) with rfl | hx2
          · exact List.mem_append_left _ hp
          · exact List.mem_append_right _ (ih (added ++ [h]) x hx2 p hp)

theorem diagNew_key_block (info : String → Option HwInfo) :
    ∀ (rs : List Reading) (added : List String) (p : String × Reading),
      p ∈ (diagNew info rs added).1 →
      ∃ x ∈ (diagNew info rs added).2, p.1 ∈ diagKeysOf x := by
  intro rs
  induction rs with
  | nil => intro added p hp; exact absurd hp (by simp [diagNew])
  | cons r rs ih =>
    intro added p hp
    cases hth : truthyHid r with
    | none =>
      unfold diagNew at hp ⊢
      rw [hth] at hp ⊢
      exact ih added p hp
    | some h =>
      unfold diagNew at hp ⊢
      rw [hth] at hp ⊢
      dsimp only at hp ⊢
      by_cases hmem : h ∈ added
      · rw [if_pos hmem] at hp ⊢; exact ih added p hp
      · rw [if_neg hmem] at hp ⊢
        by_cases hemp : diagEntriesFor info h = []
        · rw [if_pos hemp] at hp ⊢; exact ih added p hp
        · rw [if_neg hemp] at hp ⊢
          rcases List.mem_append.mp hp with h1 | h1
          · exact ⟨h, by simp, diagEntriesFor_key_mem info h p h1⟩
          · obtain ⟨x, hx, hk⟩ := ih (added ++ [h]) p h1
            exact ⟨x, by simp [hx], hk⟩

theorem diagNew_fst_hid (info : String → Option HwInfo) :
    ∀ (rs : List Reading) (added : List String) (p : String × Reading),
      p ∈ (diagNew info rs added).1 →
      ∃ x ∈ (diagNew info rs added).2, truthyHid p.2 = some x := by
  intro rs
  induction rs with
  | nil => intro added p hp; exact absurd hp (by simp [diagNew])
  | cons r rs ih =>
    intro added p hp
    cases hth : truthyHid r with
    | none =>
      unfold diagNew at hp ⊢
      rw [hth] at hp ⊢
      exact ih added p hp
    | some h =>
      unfold diagNew at hp ⊢
      rw [hth] at hp ⊢
      dsimp only at hp ⊢
      by_cases hmem : h ∈ added
      · rw [if_pos hmem] at hp ⊢; exact ih added p hp
      · rw [if_neg hmem] at hp ⊢
        by_cases hemp : diagEntriesFor info h = []
        · rw [if_pos hemp] at hp ⊢; exact ih added p hp
        · rw [if_neg hemp] at hp ⊢
          rcases List.mem_append.mp hp with h1 | h1
          · exact ⟨h, by simp,
              diagEntriesFor_hid info h (truthyHid_ne_empty hth) p h1⟩
          · obtain ⟨x, hx, hk⟩ := ih (added ++ [h]) p h1
            exact ⟨x, by simp [hx], hk⟩

theorem diagNew_keys_nodup (info : String → Option HwInfo) :
    ∀ (rs : List Reading) (added : List String),
      (∀ r1 ∈ rs, ∀ r2 ∈ rs, ∀ h1 h2, truthyHid r1 = some h1 →
        truthyHid r2 = some h2 → h1 ≠ h2 → pyToLower h1 ≠ pyToLower h2) →
      ((diagNew info rs added).1.map Prod.fst).Nodup := by
  intro rs
  induction rs with
  | nil => intro added _; simp [diagNew]
  | cons r rs ih =>
    intro added hpair
    have hpair' : ∀ r1 ∈ rs, ∀ r2 ∈ rs, ∀ h1 h2, truthyHid r1 = some h1 →
        truthyHid r2 = some h2 → h1 ≠ h2 → pyToLower h1 ≠ pyToLower h2 :=
      fun r1 hr1 r2 hr2 h1 h2 ht1 ht2 hne =>
        hpair r1 (List.mem_cons_of_mem r hr1) r2 (List.mem_cons_of_mem r hr2)
          h1 h2 ht1 ht2 hne
    cases hth : truthyHid r with
    | none =>
      rw [diagNew_cons, hth]
      exact ih added hpair'
    | some h =>
      rw [diagNew_cons, hth]
      dsimp only
      by_cases hmem : h ∈ added
      · rw [if_pos hmem]; exact ih added hpair'
      · rw [if_neg hmem]
        by_cases hemp : diagEntriesFor info h = []
        · rw [if_pos hemp]; exact ih added hpair'
        · rw [if_neg hemp]
          dsimp only
          rw [List.map_append, List.nodup_append]
          refine ⟨diagEntriesFor_keys_nodup info h, ih (added ++ [h]) hpair', ?_⟩
          intro k hk1 hk2
          obtain ⟨p1, hp1, hkp1⟩ := List.mem_map.mp hk1
          obtain ⟨p2, hp2, hkp2⟩ := List.mem_map.mp hk2
          obtain ⟨x, hx, hkx⟩ := diagNew_key_block info rs (added ++ [h]) p2 hp2
          have hxne : x ≠ h := by
            intro hcon
            exact (diagNew_added_disjoint info rs (added ++ [h]) x hx)
              (hcon ▸ List.mem_append_right _ (by simp))
          obtain ⟨rx, hrx, hthx⟩ := diagNew_present info rs (added ++ [h]) x hx
          have hlow : pyToLower h ≠ pyToLower x :=
            hpair r (List.mem_cons_self r rs) rx (List.mem_cons_of_mem r hrx)
              h x hth hthx (Ne.symm hxne)
          have hk1' : k ∈ diagKeysOf h := by
            rw [← hkp1]
            exact diagEntriesFor_key_mem info h p1 hp1
          have hk2' : k ∈ diagKeysOf x := by
            rw [← hkp2]
            exact hkx
          exact diagKeysOf_disjoint hlow k hk1' hk2'

theorem foldl_addDiagStep_snd (info : String → Option HwInfo) :
    ∀ (rs : List Reading) (sd : SensorsData) (added : List String),
      (List.foldl (addDiagStep info) (sd, added) rs).2 =
        added ++ (diagNew info rs added).2 := by
  intro rs
  induction rs with
  | nil => intro sd added; simp [diagNew]
  | cons r rs ih =>
    intro sd added
    rw [List.foldl_cons, addDiagStep_eq]
    cases hth : truthyHid r with
    | none =>
      dsimp only
      rw [ih]
      rw [diagNew_cons, hth]
    | some h =>
      dsimp only
      by_cases hmem : h ∈ added
      · rw [if_pos hmem, ih]
        rw [diagNew_cons, hth]
        dsimp only
        rw [if_pos hmem]
      · rw [if_neg hmem]
        by_cases hemp : diagEntriesFor info h = []
        · rw [if_pos hemp, ih]
          rw [diagNew_cons, hth]
          dsimp only
          rw [if_neg hmem, if_pos hemp]
        · rw [if_neg hemp]
          rw [ih]
          rw [diagNew_cons, hth]
          dsimp only
          rw [if_neg hmem, if_neg hemp]
          simp

theorem foldl_addDiagStep_fresh (info : String → Option HwInfo) :
    ∀ (rs : List Reading) (sd : SensorsData) (added : List String),
      (∀ r ∈ rs, ∀ h, truthyHid r = some h → h ∉ added →
        diagEntriesFor info h ≠ [] → ∀ p ∈ sd, p.1 ∉ diagKeysOf h) →
      (∀ r1 ∈ rs, ∀ r2 ∈ rs, ∀ h1 h2, truthyHid r1 = some h1 →
        truthyHid r2 = some h2 → h1 ≠ h2 → pyToLower h1 ≠ pyToLower h2) →
      List.foldl (addDiagStep info) (sd, added) rs =
        (sd ++ (diagNew info rs added).1, added ++ (diagNew info rs added).2) := by
  intro rs
  induction rs with
  | nil => intro sd added _ _; simp [diagNew]
  | cons r rs ih =>
    intro sd added hkeys hpair
    have hpair' : ∀ r1 ∈ rs, ∀ r2 ∈ rs, ∀ h1 h2, truthyHid r1 = some h1 →
        truthyHid r2 = some h2 → h1 ≠ h2 → pyToLower h1 ≠ pyToLower h2 :=
      fun r1 hr1 r2 hr2 h1 h2 ht1 ht2 hne =>
        hpair r1 (List.mem_cons_of_mem r hr1) r2 (List.mem_cons_of_mem r hr2)
          h1 h2 ht1 ht2 hne
    rw [List.foldl_cons, addDiagStep_eq]
    cases hth : truthyHid r with
    | none =>
      dsimp only
      rw [ih sd added
        (fun r' hr' => hkeys r' (List.mem_cons_of_mem r hr')) hpair']
      rw [diagNew_cons, hth]
    | some h =>
      dsimp only
      by_cases hmem : h ∈ added
      · rw [if_pos hmem,
          ih sd added (fun r' hr' => hkeys r' (List.mem_cons_of_mem r hr'))
            hpair']
        rw [diagNew_cons, hth]
        dsimp only
        rw [if_pos hmem]
      · rw [if_neg hmem]
        by_cases hemp : diagEntriesFor info h = []
        · rw [if_pos hemp,
            ih sd added (fun r' hr' => hkeys r' (List.mem_cons_of_mem r hr'))
              hpair']
          rw [diagNew_cons, hth]
          dsimp only
          rw [if_neg hmem, if_pos hemp]
        · rw [if_neg hemp]
          have hsdkeys : ∀ p ∈ sd, p.1 ∉ diagKeysOf h :=
            hkeys r (List.mem_cons_self r rs) h hth hmem hemp
          have hins : insertAll sd (diagEntriesFor info h) =
              sd ++ diagEntriesFor info h := by
            apply insertAll_fresh
            · intro p hp q hq hcon
              exact hsdkeys q hq (hcon ▸ diagEntriesFor_key_mem info h p hp)
            · exact diagEntriesFor_keys_nodup info h
          rw [hins]
          have hkeys' : ∀ r' ∈ rs, ∀ h', truthyHid r' = some h' →
              h' ∉ added ++ [h] → diagEntriesFor info h' ≠ [] →
              ∀ p ∈ sd ++ diagEntriesFor info h, p.1 ∉ diagKeysOf h' := by
            intro r' hr' h' hth' hmem' hemp' p hp
            have hne' : h' ≠ h := by
              intro hcon
              exact hmem' (hcon ▸ List.mem_append_right _ (by simp))
            have hmem'' : h' ∉ added := fun hc =>
              hmem' (List.mem_append_left _ hc)
            rcases List.mem_append.mp hp with h1 | h1
            · exact hkeys r' (List.mem_cons_of_mem r hr') h' hth' hmem''
                hemp' p h1
            · have hlow : pyToLower h ≠ pyToLower h' :=
                hpair r (List.mem_cons_self r rs) r'
                  (List.mem_cons_of_mem r hr') h h' hth hth' (Ne.symm hne')
              intro hcon
              exact diagKeysOf_disjoint hlow p.1
                (diagEntriesFor_key_mem info h p h1) hcon
          rw [ih (sd ++ diagEntriesFor info h) (added ++ [h]) hkeys' hpair']
          rw [diagNew_cons, hth]
          dsimp only
          rw [if_neg hmem, if_neg hemp]
          simp [List.append_assoc]

theorem foldl_addDiagStep_noop (info : String → Option HwInfo) :
    ∀ (rs : List Reading) (sd : SensorsData) (added : List String),
      (sd.map Prod.fst).Nodup →
      (∀ r ∈ rs, ∀ h, truthyHid r = some h → h ∉ added →
        ∀ p ∈ diagEntriesFor info h, p ∈ sd) →
      (List.foldl (addDiagStep info) (sd, added) rs).1 = sd := by
  intro rs
  induction rs with
  | nil => intro sd added _ _; rfl
  | cons r rs ih =>
    intro sd added hnodup hsub
    rw [List.foldl_cons, addDiagStep_eq]
    cases hth : truthyHid r with
    | none =>
      dsimp only
      exact ih sd added hnodup
        (fun r' hr' => hsub r' (List.mem_cons_of_mem r hr'))
    | some h =>
      dsimp only
      by_cases hmem : h ∈ added
      · rw [if_pos hmem]
        exact ih sd added hnodup
          (fun r' hr' => hsub r' (List.mem_cons_of_mem r hr'))
      · rw [if_neg hmem]
        by_cases hemp : diagEntriesFor info h = []
        · rw [if_pos hemp]
          exact ih sd added hnodup
            (fun r' hr' => hsub r' (List.mem_cons_of_mem r hr'))
        · rw [if_neg hemp]
          have hins : insertAll sd (diagEntriesFor info h) = sd :=
            insertAll_noop (diagEntriesFor info h) sd hnodup
              (hsub r (List.mem_cons_self r rs) h hth hmem)
          rw [hins]
          apply ih sd (added ++ [h]) hnodup
          intro r' hr' h' hth' hmem'
          exact hsub r' (List.mem_cons_of_mem r hr') h' hth'
            (fun hc => hmem' (List.mem_append_left _ hc))

theorem foldl_addDiagStep_skip (info : String → Option HwInfo) :
    ∀ (rs : List Reading) (sd : SensorsData) (added : List String),
      (∀ r ∈ rs, ∃ h ∈ added, truthyHid r = some h) →
      List.foldl (addDiagStep info) (sd, added) rs = (sd, added) := by
  intro rs
  induction rs with
  | nil => intro sd added _; rfl
  | cons r rs ih =>
    intro sd added hall
    obtain ⟨h, hmem, hth⟩ := hall r (List.mem_cons_self r rs)
    rw [List.foldl_cons, addDiagStep_eq, hth]
    dsimp only
    rw [if_pos hmem]
    exact ih sd added (fun r' hr' => hall r' (List.mem_cons_of_mem r hr'))

theorem countDiagFor_append (h : String) (a b : SensorsData) :
    countDiagFor h (a ++ b) = countDiagFor h a + countDiagFor h b := by
  simp [countDiagFor, List.filter_append]

theorem countDiagFor_zero (h : String) (sd : SensorsData)
    (hz : ∀ p ∈ sd, p.1 ∉ diagKeysOf h) : countDiagFor h sd = 0 := by
  unfold countDiagFor
  rw [List.length_eq_zero, List.filter_eq_nil_iff]
  intro p hp
  have := hz p hp
  simp only [diagKeysOf, List.mem_cons, List.not_mem_nil, or_false, not_or] at this
  simp [this.1, this.2.1, this.2.2]

theorem countDiagFor_block (info : String → Option HwInfo) (h : String) :
    countDiagFor h (diagEntriesFor info h) = (diagEntriesFor info h).length := by
  unfold countDiagFor
  congr 1
  rw [List.filter_eq_self]
  intro p hp
  have := diagEntriesFor_key_mem info h p hp
  simp only [diagKeysOf, List.mem_cons, List.not_mem_nil, or_false] at this
  rcases this with h1 | h1 | h1 <;> simp [h1]

theorem countDiag_diagNew (info : String → Option HwInfo) (h : String) :
    ∀ (rs : List Reading) (added : List String),
      (∀ r ∈ rs, ∀ h', truthyHid r = some h' → h' ≠ h →
        pyToLower h' ≠ pyToLower h) →
      countDiagFor h (diagNew info rs added).1 =
        if h ∈ (diagNew info rs added).2 then (diagEntriesFor info h).length
        else 0 := by
  intro rs
  induction rs with
  | nil => intro added _; simp [diagNew, countDiagFor]
  | cons r rs ih =>
    intro added hpair
    have hpair' : ∀ r' ∈ rs, ∀ h', truthyHid r' = some h' → h' ≠ h →
        pyToLower h' ≠ pyToLower h :=
      fun r' hr' => hpair r' (List.mem_cons_of_mem r hr')
    rw [diagNew_cons]
    cases hth : truthyHid r with
    | none => exact ih added hpair'
    | some h0 =>
      dsimp only
      by_cases hmem : h0 ∈ added
      · rw [if_pos hmem]; exact ih added hpair'
      · rw [if_neg hmem]
        by_cases hemp : diagEntriesFor info h0 = []
        · rw [if_pos hemp]; exact ih added hpair'
        · rw [if_neg hemp]
          dsimp only
          rw [countDiagFor_append]
          by_cases heq : h0 = h
          · subst heq
            have hnotin : h0 ∉ (diagNew info rs (added ++ [h0])).2 := by
              intro hcon
              exact diagNew_added_disjoint info rs (added ++ [h0]) h0 hcon
                (List.mem_append_right _ (by simp))
            rw [countDiagFor_block, ih (added ++ [h0]) hpair', if_neg hnotin]
            simp
          · have hlow : pyToLower h0 ≠ pyToLower h :=
              hpair r (List.mem_cons_self r rs) h0 hth heq
            have hzero : countDiagFor h (diagEntriesFor info h0) = 0 := by
              apply countDiagFor_zero
              intro p hp hcon
              exact diagKeysOf_disjoint hlow p.1
                (diagEntriesFor_key_mem info h0 p hp) hcon
            rw [hzero, ih (added ++ [h0]) hpair']
            have hmemiff : (h ∈ h0 :: (diagNew info rs (added ++ [h0])).2) ↔
                h ∈ (diagNew info rs (added ++ [h0])).2 := by
              simp [Ne.symm heq]
            by_cases hfin : h ∈ (diagNew info rs (added ++ [h0])).2
            · rw [if_pos hfin, if_pos (hmemiff.mpr hfin)]
              simp
            · rw [if_neg hfin, if_neg (fun hc => hfin (hmemiff.mp hc))]

/-- Claim C2 (amended): over an arbitrary cycle dict whose entity keys do
not collide with the synthesized diagnostic ids and whose truthy hardware
ids are distinct up to lower-casing, the synthesis pass only appends
diagnostic entries; for every truthy hardware id among the readings whose
mapper record exists with a truthy channel it yields exactly three
diagnostics (signal, hardware-id, channel) when the signal is truthy and
not the `"--"` sentinel and exactly two otherwise; a unit without a mapper
record, or whose record lacks a truthy channel, yields none; and repeating
the pass within the same cycle changes nothing. -/
theorem diag_per_unit_amended :
    ∀ (info : String → Option HwInfo) (sd : SensorsData),
      (∀ p ∈ sd, ∀ r ∈ List.map Prod.snd sd, ∀ h, truthyHid r = some h →
        p.1 ∉ diagKeysOf h) →
      (∀ r1 ∈ List.map Prod.snd sd, ∀ r2 ∈ List.map Prod.snd sd, ∀ h1 h2,
        truthyHid r1 = some h1 → truthyHid r2 = some h2 → h1 ≠ h2 →
        pyToLower h1 ≠ pyToLower h2) →
      (sd.map Prod.fst).Nodup →
      (addDiagnosticAndSignalSensors info sd =
        sd ++ (diagNew info (List.map Prod.snd sd) []).1) ∧
      (∀ h hi, (∃ r ∈ List.map Prod.snd sd, truthyHid r = some h) →
        info h = some hi → hi.channel.getD "" ≠ "" →
        countDiagFor h (addDiagnosticAndSignalSensors info sd) =
          if hi.signal.getD "" ≠ "" ∧ hi.signal.getD "" ≠ "--" then 3 else 2) ∧
      (∀ h, (∃ r ∈ List.map Prod.snd sd, truthyHid r = some h) →
        (info h = none ∨ ∃ hi, info h = some hi ∧ hi.channel.getD "" = "") →
        countDiagFor h (addDiagnosticAndSignalSensors info sd) = 0) ∧
      addDiagnosticAndSignalSensors info
          (addDiagnosticAndSignalSensors info sd) =
        addDiagnosticAndSignalSensors info sd := by
  intro info sd hkeys hpair hnodup
  have h1 : addDiagnosticAndSignalSensors info sd =
      sd ++ (diagNew info (List.map Prod.snd sd) []).1 := by
    unfold addDiagnosticAndSignalSensors
    rw [foldl_addDiagStep_fresh info (List.map Prod.snd sd) sd []
      (fun r hr h hth _ _ p hp => hkeys p hp r hr h hth) hpair]
  refine ⟨h1, ?_, ?_, ?_⟩
  · intro h hi hex hhi hch
    obtain ⟨rW, hrW, hthW⟩ := hex
    have hsd0 : countDiagFor h sd = 0 :=
      countDiagFor_zero h sd (fun p hp => hkeys p hp rW hrW h hthW)
    have hp1 : ∀ r' ∈ List.map Prod.snd sd, ∀ h', truthyHid r' = some h' →
        h' ≠ h → pyToLower h' ≠ pyToLower h :=
      fun r' hr' h' hth' hne => hpair r' hr' rW hrW h' h hth' hthW hne
    have hmem : h ∈ (diagNew info (List.map Prod.snd sd) []).2 :=
      diagNew_mem info (List.map Prod.snd sd) [] h (by simp) ⟨rW, hrW, hthW⟩
        (diagEntriesFor_ne info h hi hhi hch)
    rw [h1, countDiagFor_append, hsd0,
      countDiag_diagNew info h (List.map Prod.snd sd) [] hp1, if_pos hmem,
      diagEntriesFor_length info h hi hhi hch]
    simp
  · intro h hex hz
    obtain ⟨rW, hrW, hthW⟩ := hex
    have hsd0 : countDiagFor h sd = 0 :=
      countDiagFor_zero h sd (fun p hp => hkeys p hp rW hrW h hthW)
    have hp1 : ∀ r' ∈ List.map Prod.snd sd, ∀ h', truthyHid r' = some h' →
        h' ≠ h → pyToLower h' ≠ pyToLower h :=
      fun r' hr' h' hth' hne => hpair r' hr' rW hrW h' h hth' hthW hne
    have hnmem : h ∉ (diagNew info (List.map Prod.snd sd) []).2 := by
      intro hcon
      exact diagNew_entries_ne info (List.map Prod.snd sd) [] h hcon
        (diagEntriesFor_empty info h hz)
    rw [h1, countDiagFor_append, hsd0,
      countDiag_diagNew info h (List.map Prod.snd sd) [] hp1, if_neg hnmem]
  · have hresnodup :
        ((sd ++ (diagNew info (List.map Prod.snd sd) []).1).map Prod.fst).Nodup := by
      rw [List.map_append, List.nodup_append]
      refine ⟨hnodup, diagNew_keys_nodup info (List.map Prod.snd sd) [] hpair, ?_⟩
      intro k hk1 hk2
      obtain ⟨p, hp, hkp⟩ := List.mem_map.mp hk1
      obtain ⟨q, hq, hkq⟩ := List.mem_map.mp hk2
      obtain ⟨x, hx, hkx⟩ :=
        diagNew_key_block info (List.map Prod.snd sd) [] q hq
      obtain ⟨rx, hrx, hthx⟩ :=
        diagNew_present info (List.map Prod.snd sd) [] x hx
      exact hkeys p hp rx hrx x hthx (by rw [hkp, ← hkq]; exact hkx)
    have hsub : ∀ r ∈ List.map Prod.snd sd, ∀ h, truthyHid r = some h →
        h ∉ ([] : List String) → ∀ p ∈ diagEntriesFor info h,
        p ∈ sd ++ (diagNew info (List.map Prod.snd sd) []).1 := by
      intro r hr h hth _ p hp
      by_cases hemp : diagEntriesFor info h = []
      · rw [hemp] at hp
        exact absurd hp (List.not_mem_nil p)
      · have hmem : h ∈ (diagNew info (List.map Prod.snd sd) []).2 :=
          diagNew_mem info (List.map Prod.snd sd) [] h (by simp) ⟨r, hr, hth⟩
            hemp
        exact List.mem_append_right _
          (diagNew_block_subset info (List.map Prod.snd sd) [] h hmem p hp)
    have hP : List.foldl (addDiagStep info)
        (sd ++ (diagNew info (List.map Prod.snd sd) []).1, [])
        (List.map Prod.snd sd) =
        (sd ++ (diagNew info (List.map Prod.snd sd) []).1,
          [] ++ (diagNew info (List.map Prod.snd sd) []).2) := by
      have c1 := foldl_addDiagStep_noop info (List.map Prod.snd sd)
        (sd ++ (diagNew info (List.map Prod.snd sd) []).1) [] hresnodup hsub
      have c2 := foldl_addDiagStep_snd info (List.map Prod.snd sd)
        (sd ++ (diagNew info (List.map Prod.snd sd) []).1) []
      cases hfold : List.foldl (addDiagStep info)
          (sd ++ (diagNew info (List.map Prod.snd sd) []).1, [])
          (List.map Prod.snd sd) with
      | mk a b =>
        rw [hfold] at c1 c2
        have c1' : a = sd ++ (diagNew info (List.map Prod.snd sd) []).1 := by
          simpa using c1
        have c2' : b = [] ++ (diagNew info (List.map Prod.snd sd) []).2 := by
          simpa using c2
        rw [c1', c2']
    have hskip : ∀ r ∈ (diagNew info (List.map Prod.snd sd) []).1.map Prod.snd,
        ∃ x ∈ [] ++ (diagNew info (List.map Prod.snd sd) []).2,
        truthyHid r = some x := by
      intro r hr
      obtain ⟨q, hq, hrq⟩ := List.mem_map.mp hr
      obtain ⟨x, hx, hthx⟩ :=
        diagNew_fst_hid info (List.map Prod.snd sd) [] q hq
      exact ⟨x, by simpa using hx, by rw [← hrq]; exact hthx⟩
    rw [h1]
    unfold addDiagnosticAndSignalSensors
    rw [List.map_append, List.foldl_append, hP,
      foldl_addDiagStep_skip info _ _ _ hskip]

/-- A mapper-record table knowing only unit `BB`. -/
def infoW2 : String → Option HwInfo := fun x =>
  if x = "BB" then some hiW else none

/-- Soil-moisture reading owned by unit `BB`. -/
def rBB0 : Reading :=
  { entityId := "sensor.ecowitt_soil_moisture_ch2", name := "Soil Moisture",
    state := some (.int 31), unit := some "%",
    deviceClass := some "moisture", category := "sensor",
    sensorKey := "soilmoisture2", hardwareId := some "BB",
    rawValue := .str "31", details := none }

/-- Soil-battery reading owned by unit `BB`. -/
def rBB1 : Reading :=
  { entityId := "sensor.ecowitt_soil_battery_ch2", name := "Soil Battery",
    state := some (.str "80"), unit := some "%",
    deviceClass := some "battery", category := "diagnostic",
    sensorKey := "soilbatt2", hardwareId := some "BB",
    rawValue := .str "4", details := none }

/-- Air-quality reading owned by unit `CC`, which has no mapper record. -/
def rCC : Reading :=
  { entityId := "sensor.ecowitt_pm25_ch1", name := "PM2.5",
    state := some (.int 12), unit := some "µg/m³",
    deviceClass := some "pm25", category := "sensor",
    sensorKey := "pm25_ch1", hardwareId := some "CC",
    rawValue := .str "12", details := none }

/-- A three-reading cycle over units `BB` (known) and `CC` (unknown). -/
def sdW2 : SensorsData :=
  [("sensor.ecowitt_soil_moisture_ch2", rBB0),
   ("sensor.ecowitt_soil_battery_ch2", rBB1),
   ("sensor.ecowitt_pm25_ch1", rCC)]

theorem diag_per_unit_amended_witness :
    countDiagFor "BB" (addDiagnosticAndSignalSensors infoW2 sdW2) =
      (if hiW.signal.getD "" ≠ "" ∧ hiW.signal.getD "" ≠ "--" then 3 else 2) ∧
    countDiagFor "CC" (addDiagnosticAndSignalSensors infoW2 sdW2) = 0 ∧
    addDiagnosticAndSignalSensors infoW2
        (addDiagnosticAndSignalSensors infoW2 sdW2) =
      addDiagnosticAndSignalSensors infoW2 sdW2 := by
  have hhid : ∀ r ∈ List.map Prod.snd sdW2, ∀ h, truthyHid r = some h →
      h = "BB" ∨ h = "CC" := by
    intro r hr h hth
    simp only [sdW2, List.map_cons, List.map_nil, List.mem_cons,
      List.not_mem_nil, or_false] at hr
    rcases hr with rfl | rfl | rfl
    · left
      have h0 : truthyHid rBB0 = some "BB" := rfl
      rw [h0] at hth
      exact (Option.some.inj hth).symm
    · left
      have h0 : truthyHid rBB1 = some "BB" := rfl
      rw [h0] at hth
      exact (Option.some.inj hth).symm
    · right
      have h0 : truthyHid rCC = some "CC" := rfl
      rw [h0] at hth
      exact (Option.some.inj hth).symm
  have hk : ∀ p ∈ sdW2, ∀ r ∈ List.map Prod.snd sdW2, ∀ h,
      truthyHid r = some h → p.1 ∉ diagKeysOf h := by
    intro p hp r hr h hth
    rcases hhid r hr h hth with rfl | rfl <;>
      (simp only [sdW2, List.mem_cons, List.not_mem_nil, or_false] at hp;
       rcases hp with rfl | rfl | rfl <;> decide)
  have hp2 : ∀ r1 ∈ List.map Prod.snd sdW2, ∀ r2 ∈ List.map Prod.snd sdW2,
      ∀ h1 h2, truthyHid r1 = some h1 → truthyHid r2 = some h2 → h1 ≠ h2 →
      pyToLower h1 ≠ pyToLower h2 := by
    intro r1 hr1 r2 hr2 h1 h2 ht1 ht2 hne
    rcases hhid r1 hr1 h1 ht1 with rfl | rfl <;>
      rcases hhid r2 hr2 h2 ht2 with rfl | rfl
    · exact absurd rfl hne
    · decide
    · decide
    · exact absurd rfl hne
  have H := diag_per_unit_amended infoW2 sdW2 hk hp2 (by decide)
  exact ⟨H.2.1 "BB" hiW ⟨rBB0, by simp [sdW2], rfl⟩ (by decide) (by decide),
    H.2.2.1 "CC" ⟨rCC, by simp [sdW2], rfl⟩ (Or.inl (by decide)),
    H.2.2.2⟩
